import Mathlib

/-!
# Verification of the knowledge-graph fusion subsystem

Shallow embedding of the knowledge-fusion core of the repository
(`kg_core`/`kg_demo`): the data model (`Entity`, `Relation`, property
values), the similarity calculator, the entity/relation fusion engines,
the conflict resolver, and the in-memory knowledge-graph store, together
with theorems settling the specification claims.

Modelling conventions:
* Python `dict`s are modelled as association lists with upsert semantics
  (first occurrence wins on lookup; update keeps the original position,
  new keys are appended), which matches CPython's insertion-ordered dicts.
* Python `set`s of strings/ints are modelled as duplicate-free lists in
  insertion order (only membership and cardinality are ever observed).
* Python `float` arithmetic is modelled exactly: by `ℚ` where the code
  only uses field operations, and by `ℝ` where `math.sqrt` is involved
  (the cosine similarity); rounding error is not modelled.
* `uuid.uuid4()` produces ids that no algorithm in the verified claims
  ever inspects; the freshly generated ids are modelled by the opaque
  placeholder string `"uuid"`.
* Exceptions (`ValueError`, `IndexError`) are modelled by `Except String`
  or by returning the post-mutation state together with an error flag,
  mirroring exactly which mutations have happened before the `raise`.
-/

/-- Tagged property values: the dynamically typed values stored in the
`properties` dict of entities and relations (string, number, boolean,
list, nested dict). -/
inductive PropValue where
  | pstr (s : String)
  | pnum (q : ℚ)
  | pbool (b : Bool)
  | pnone
  | plist (l : List PropValue)
  | pdict (d : List (String × PropValue))

mutual

/-- Structural equality test on property values (Python `==`). -/
def pvBeq : PropValue → PropValue → Bool
  | .pstr a, .pstr b => a = b
  | .pnum a, .pnum b => a = b
  | .pbool a, .pbool b => a = b
  | .pnone, .pnone => true
  | .plist a, .plist b => pvBeqList a b
  | .pdict a, .pdict b => pvBeqDict a b
  | _, _ => false

/-- Elementwise equality of lists of property values. -/
def pvBeqList : List PropValue → List PropValue → Bool
  | [], [] => true
  | x :: xs, y :: ys => pvBeq x y && pvBeqList xs ys
  | _, _ => false

/-- Elementwise equality of string-keyed bindings of property values. -/
def pvBeqDict : List (String × PropValue) → List (String × PropValue) → Bool
  | [], [] => true
  | (k, v) :: xs, (k', v') :: ys => k = k' && pvBeq v v' && pvBeqDict xs ys
  | _, _ => false

end

mutual

theorem pvBeq_iff : ∀ a b : PropValue, pvBeq a b = true ↔ a = b
  | .pstr a, .pstr b => by simp [pvBeq]
  | .pstr _, .pnum _ | .pstr _, .pbool _ | .pstr _, .pnone | .pstr _, .plist _
  | .pstr _, .pdict _ => by simp [pvBeq]
  | .pnum a, .pnum b => by simp [pvBeq]
  | .pnum _, .pstr _ | .pnum _, .pbool _ | .pnum _, .pnone | .pnum _, .plist _
  | .pnum _, .pdict _ => by simp [pvBeq]
  | .pbool a, .pbool b => by simp [pvBeq]
  | .pbool _, .pstr _ | .pbool _, .pnum _ | .pbool _, .pnone | .pbool _, .plist _
  | .pbool _, .pdict _ => by simp [pvBeq]
  | .pnone, .pnone => by simp [pvBeq]
  | .pnone, .pstr _ | .pnone, .pnum _ | .pnone, .pbool _ | .pnone, .plist _
  | .pnone, .pdict _ => by simp [pvBeq]
  | .plist a, .plist b => by
      have h := pvBeqList_iff a b
      simp [pvBeq, h]
  | .plist _, .pstr _ | .plist _, .pnum _ | .plist _, .pbool _ | .plist _, .pnone
  | .plist _, .pdict _ => by simp [pvBeq]
  | .pdict a, .pdict b => by
      have h := pvBeqDict_iff a b
      simp [pvBeq, h]
  | .pdict _, .pstr _ | .pdict _, .pnum _ | .pdict _, .pbool _ | .pdict _, .pnone
  | .pdict _, .plist _ => by simp [pvBeq]

theorem pvBeqList_iff : ∀ a b : List PropValue, pvBeqList a b = true ↔ a = b
  | [], [] => by simp [pvBeqList]
  | [], _ :: _ => by simp [pvBeqList]
  | _ :: _, [] => by simp [pvBeqList]
  | x :: xs, y :: ys => by
      have h1 := pvBeq_iff x y
      have h2 := pvBeqList_iff xs ys
      simp [pvBeqList, h1, h2]

theorem pvBeqDict_iff : ∀ a b : List (String × PropValue), pvBeqDict a b = true ↔ a = b
  | [], [] => by simp [pvBeqDict]
  | [], _ :: _ => by simp [pvBeqDict]
  | _ :: _, [] => by simp [pvBeqDict]
  | (k, v) :: xs, (k', v') :: ys => by
      have h1 := pvBeq_iff v v'
      have h2 := pvBeqDict_iff xs ys
      simp [pvBeqDict, h1, h2, Prod.ext_iff, and_assoc]

end

instance : DecidableEq PropValue :=
  fun a b => decidable_of_iff _ (pvBeq_iff a b)

mutual

/-- Python `str(value)`, used by the code only to group values into
equality classes for voting/most-frequent selection. -/
def pvStr : PropValue → String
  | .pstr s => s
  | .pnum q => toString q
  | .pbool b => if b then "True" else "False"
  | .pnone => "None"
  | .plist l => "[" ++ String.intercalate ", " (pvStrList l) ++ "]"
  | .pdict d => "\x7b" ++ String.intercalate ", " (pvStrDict d) ++ "\x7d"

/-- `str` of each element of a list value. -/
def pvStrList : List PropValue → List String
  | [] => []
  | x :: xs => pvStr x :: pvStrList xs

/-- `str` of each binding of a dict value. -/
def pvStrDict : List (String × PropValue) → List String
  | [] => []
  | (k, v) :: xs => (k ++ ": " ++ pvStr v) :: pvStrDict xs

end

/-- `Entity` dataclass from `entity_definition/entity_types.py`
(id, name, type, properties, aliases; `aliases=None` normalised to `[]`
by `__post_init__`). -/
structure Entity where
  id : String
  name : String
  type : String
  properties : List (String × PropValue)
  aliases : List String
deriving DecidableEq

/-- `Relation` dataclass from `entity_definition/relation_types.py`
(id, type, head_entity_id, tail_entity_id, properties, confidence). -/
structure Relation where
  id : String
  type : String
  head_entity_id : String
  tail_entity_id : String
  properties : List (String × PropValue)
  confidence : ℚ
deriving DecidableEq

/-! ## Association-list dictionaries (Python `dict` semantics) -/

/-- Lookup in an association list: first matching key wins. -/
def alGet {α : Type} (m : List (String × α)) (k : String) : Option α :=
  (m.find? (fun kv => kv.1 = k)).map (·.2)

/-- `d[k] = v` on a Python dict: replace the value of an existing key in
place, otherwise append the new binding. -/
def alPut {α : Type} (m : List (String × α)) (k : String) (v : α) :
    List (String × α) :=
  match m with
  | [] => [(k, v)]
  | kv :: rest =>
      if kv.1 = k then (k, v) :: rest else kv :: alPut rest k v

/-- Membership of a key (`k in d`). -/
def alHas {α : Type} (m : List (String × α)) (k : String) : Bool :=
  m.any (fun kv => kv.1 = k)

/-- Keys of the dict, in insertion order. -/
def alKeys {α : Type} (m : List (String × α)) : List String :=
  m.map (·.1)

/-- `s.add(x)` on a Python set modelled as a duplicate-free list. -/
def setAdd (s : List String) (x : String) : List String :=
  if x ∈ s then s else s ++ [x]

theorem alGet_alPut_same {α : Type} (m : List (String × α)) (k : String) (v : α) :
    alGet (alPut m k v) k = some v := by
  induction m with
  | nil => simp [alGet, alPut]
  | cons kv rest ih =>
      by_cases h : kv.1 = k
      · simp [alPut, h, alGet]
      · simp only [alPut, if_neg h]
        simpa [alGet, List.find?, h] using ih

theorem alGet_alPut_other {α : Type} (m : List (String × α)) (k k' : String)
    (v : α) (hne : k ≠ k') : alGet (alPut m k v) k' = alGet m k' := by
  induction m with
  | nil => simp [alGet, alPut, List.find?, hne]
  | cons kv rest ih =>
      by_cases h : kv.1 = k
      · by_cases h' : kv.1 = k'
        · exact absurd (h.symm.trans h') hne
        · simp [alPut, h, alGet, List.find?, hne, h']
      · by_cases h' : kv.1 = k'
        · simp [alPut, h, alGet, List.find?, h', Ne.symm hne]
        · simp only [alPut, if_neg h]
          simpa [alGet, List.find?, h'] using ih

/-! ## KnowledgeGraph store (`kg_demo/knowledge_fusion/knowledge_graph.py`)

The networkx `MultiDiGraph` is modelled by its observable content: an
upsert map of node attributes and an append-only list of edge records.
-/

/-- Node attributes stored by `graph.add_node`. -/
structure NodeAttrs where
  name : String
  type : String
  properties : List (String × PropValue)
deriving DecidableEq

/-- Edge attributes stored by `graph.add_edge`. -/
structure EdgeAttrs where
  head : String
  tail : String
  relation_id : String
  relation_type : String
  properties : List (String × PropValue)
  confidence : ℚ
deriving DecidableEq

/-- The `KnowledgeGraph` store state: entity and relation maps, the
networkx graph, and the three derived indices (type→entity-ids,
type→relation-ids, name→entity-id). -/
structure KnowledgeGraph where
  entities : List (String × Entity)
  relations : List (String × Relation)
  graphNodes : List (String × NodeAttrs)
  graphEdges : List EdgeAttrs
  entity_type_index : List (String × List String)
  relation_type_index : List (String × List String)
  entity_name_index : List (String × String)
deriving DecidableEq

/-- A freshly constructed store. -/
def KnowledgeGraph.emptyKG : KnowledgeGraph :=
  ⟨[], [], [], [], [], [], []⟩

/-- `defaultdict(set)` update `index[key].add(v)`: the missing key
defaults to the empty set. -/
def idxAdd (idx : List (String × List String)) (k v : String) :
    List (String × List String) :=
  alPut idx k (setAdd ((alGet idx k).getD []) v)

/-- `KnowledgeGraph.add_entity`: inserts/overwrites the entity by id,
adds the graph node, and updates the type and name indices (aliases
included).  Always succeeds. -/
def KnowledgeGraph.add_entity (kg : KnowledgeGraph) (e : Entity) :
    KnowledgeGraph :=
  let kg1 := { kg with
    entities := alPut kg.entities e.id e
    graphNodes := alPut kg.graphNodes e.id ⟨e.name, e.type, e.properties⟩ }
  let kg2 := { kg1 with
    entity_type_index := idxAdd kg1.entity_type_index e.type e.id
    entity_name_index := alPut kg1.entity_name_index e.name e.id }
  { kg2 with
    entity_name_index :=
      e.aliases.foldl (fun m a => alPut m a e.id) kg2.entity_name_index }

/-- `KnowledgeGraph.add_relation`.  The Python method inserts the
relation into `self.relations` FIRST and only then checks that both
endpoints are present, raising `ValueError` afterwards; the returned
pair is the post-call state together with the raised error (if any), so
the mutation that happened before the `raise` stays visible. -/
def KnowledgeGraph.add_relation (kg : KnowledgeGraph) (r : Relation) :
    KnowledgeGraph × Option String :=
  let kg1 := { kg with relations := alPut kg.relations r.id r }
  if alHas kg1.entities r.head_entity_id = false ∨
     alHas kg1.entities r.tail_entity_id = false then
    (kg1, some "ValueError")
  else
    ({ kg1 with
        graphEdges := kg1.graphEdges ++
          [⟨r.head_entity_id, r.tail_entity_id, r.id, r.type,
            r.properties, r.confidence⟩]
        relation_type_index := idxAdd kg1.relation_type_index r.type r.id },
     none)

/-- `KnowledgeGraph.clear`: empties every map and index. -/
def KnowledgeGraph.clear (_kg : KnowledgeGraph) : KnowledgeGraph :=
  KnowledgeGraph.emptyKG

/-! ### Store index invariants (claim C2's bijection property) -/

/-- The type→entity-ids index contains exactly the ids of present
entities of that type. -/
def typeIndexConsistent (kg : KnowledgeGraph) : Prop :=
  ∀ t id, id ∈ ((alGet kg.entity_type_index t).getD []) ↔
    ∃ e, alGet kg.entities id = some e ∧ e.type = t

/-- The type→relation-ids index contains exactly the ids of present
relations of that type. -/
def relTypeIndexConsistent (kg : KnowledgeGraph) : Prop :=
  ∀ t id, id ∈ ((alGet kg.relation_type_index t).getD []) ↔
    ∃ r, alGet kg.relations id = some r ∧ r.type = t

/-- The name→entity-id index maps each present entity's name and aliases
to exactly that entity's id and has no entry that does not belong to a
present entity. -/
def nameIndexConsistent (kg : KnowledgeGraph) : Prop :=
  (∀ id e, alGet kg.entities id = some e →
    alGet kg.entity_name_index e.name = some id ∧
    ∀ a ∈ e.aliases, alGet kg.entity_name_index a = some id) ∧
  (∀ n id, alGet kg.entity_name_index n = some id →
    ∃ e, alGet kg.entities id = some e ∧ (n = e.name ∨ n ∈ e.aliases))

/-- All three derived indices are in bijection with the live maps. -/
def indicesConsistent (kg : KnowledgeGraph) : Prop :=
  typeIndexConsistent kg ∧ nameIndexConsistent kg ∧ relTypeIndexConsistent kg

/-! ### Concrete store scenarios -/

/-- The single present entity of the C1 scenario. -/
def c1Entity : Entity := ⟨"e1", "Alice", "Person", [], []⟩

/-- A relation whose tail endpoint `"e2"` is absent from the store. -/
def c1BadRel : Relation := ⟨"r1", "knows", "e1", "e2", [], 1⟩

/-- Store containing only `c1Entity`. -/
def c1Store : KnowledgeGraph :=
  KnowledgeGraph.emptyKG.add_entity c1Entity

/-- C1: `add_relation` on a relation with an absent tail raises
`ValueError`, leaves the graph edges and both type indices and the
name index unchanged — but has ALREADY inserted the relation into the
relations map, so the store is not unchanged and now holds a relation
with a missing endpoint. -/
theorem add_relation_mutates_before_validating :
    ((c1Store.add_relation c1BadRel).2 = some "ValueError") ∧
    ((c1Store.add_relation c1BadRel).1.relations = [("r1", c1BadRel)]) ∧
    ((c1Store.add_relation c1BadRel).1.graphEdges = c1Store.graphEdges) ∧
    ((c1Store.add_relation c1BadRel).1.relation_type_index
        = c1Store.relation_type_index) ∧
    ((c1Store.add_relation c1BadRel).1.entity_type_index
        = c1Store.entity_type_index) ∧
    ((c1Store.add_relation c1BadRel).1.entity_name_index
        = c1Store.entity_name_index) ∧
    (alGet (c1Store.add_relation c1BadRel).1.relations "r1" = some c1BadRel) ∧
    (alHas (c1Store.add_relation c1BadRel).1.entities
        c1BadRel.tail_entity_id = false) := by
  decide

/-- Two entities with the same id but different name/type: adding the
second overwrites the first in the entities map, but its stale index
entries remain. -/
def c2EntityA : Entity := ⟨"1", "A", "T", [], []⟩

/-- The overwriting entity, same id `"1"`, name `"B"`, type `"U"`. -/
def c2EntityB : Entity := ⟨"1", "B", "U", [], []⟩

/-- Store after both `add_entity` calls: entity `"1"` is `c2EntityB`. -/
def c2Store : KnowledgeGraph :=
  (KnowledgeGraph.emptyKG.add_entity c2EntityA).add_entity c2EntityB

/-- C2 counterexample: after the overwriting `add_entity` completes, the
type→entity-ids index still lists id `"1"` under the overwritten type
`"T"` (and the name index still maps the overwritten name `"A"`), so the
indices are not in bijection with the live entities map. -/
theorem indices_not_consistent_after_overwrite :
    ¬ indicesConsistent c2Store := by
  rintro ⟨hType, _, _⟩
  have h1 : "1" ∈ ((alGet c2Store.entity_type_index "T").getD []) := by decide
  obtain ⟨e, he, ht⟩ := (hType "T" "1").mp h1
  have he' : e = c2EntityB := by
    have : alGet c2Store.entities "1" = some c2EntityB := by decide
    rw [this] at he
    exact (Option.some_injective _ he).symm
  subst he'
  exact absurd ht (by decide)

/-! ### Lookup lemmas for the store proofs -/

theorem alGet_alPut {α : Type} (m : List (String × α)) (k k' : String) (v : α) :
    alGet (alPut m k v) k' = if k' = k then some v else alGet m k' := by
  by_cases h : k' = k
  · subst h; simp [alGet_alPut_same]
  · simp [h, alGet_alPut_other m k k' v (Ne.symm h)]

theorem mem_setAdd {s : List String} {x y : String} :
    x ∈ setAdd s y ↔ x ∈ s ∨ x = y := by
  unfold setAdd
  by_cases h : y ∈ s
  · simp only [if_pos h]
    constructor
    · intro hx; exact Or.inl hx
    · rintro (hx | rfl)
      · exact hx
      · exact h
  · simp [h]

theorem alGet_idxAdd (idx : List (String × List String)) (k k' v : String) :
    alGet (idxAdd idx k v) k' =
      if k' = k then some (setAdd ((alGet idx k).getD []) v) else alGet idx k' := by
  unfold idxAdd
  exact alGet_alPut ..

theorem alGet_foldl_put (ss : List String) (m : List (String × String))
    (id s : String) :
    alGet (ss.foldl (fun m a => alPut m a id) m) s =
      if s ∈ ss then some id else alGet m s := by
  induction ss generalizing m with
  | nil => simp
  | cons a ss ih =>
      simp only [List.foldl_cons]
      rw [ih]
      by_cases hs : s ∈ ss
      · simp [hs]
      · by_cases ha : s = a
        · subst ha; simp [hs, alGet_alPut_same]
        · simp [hs, ha, alGet_alPut_other m a s id (Ne.symm ha)]

theorem add_entity_entities (kg : KnowledgeGraph) (e : Entity) :
    (kg.add_entity e).entities = alPut kg.entities e.id e := rfl

theorem add_entity_type_index (kg : KnowledgeGraph) (e : Entity) :
    (kg.add_entity e).entity_type_index =
      idxAdd kg.entity_type_index e.type e.id := rfl

theorem add_entity_name_index (kg : KnowledgeGraph) (e : Entity) :
    (kg.add_entity e).entity_name_index =
      (e.name :: e.aliases).foldl (fun m a => alPut m a e.id)
        kg.entity_name_index := rfl

theorem add_entity_relations (kg : KnowledgeGraph) (e : Entity) :
    (kg.add_entity e).relations = kg.relations := rfl

theorem add_entity_rel_type_index (kg : KnowledgeGraph) (e : Entity) :
    (kg.add_entity e).relation_type_index = kg.relation_type_index := rfl

/-- Collision-freedom precondition for `add_entity`: the id is fresh and
none of the entity's name/aliases is already in the name index. -/
def freshEntityB (kg : KnowledgeGraph) (e : Entity) : Bool :=
  (alGet kg.entities e.id).isNone &&
  (e.name :: e.aliases).all (fun s => (alGet kg.entity_name_index s).isNone)

/-- Precondition for a succeeding `add_relation`: fresh relation id and
both endpoints present. -/
def validRelB (kg : KnowledgeGraph) (r : Relation) : Bool :=
  (alGet kg.relations r.id).isNone &&
  alHas kg.entities r.head_entity_id &&
  alHas kg.entities r.tail_entity_id

theorem add_entity_preserves_indicesConsistent (kg : KnowledgeGraph)
    (e : Entity) (hinv : indicesConsistent kg)
    (hfresh : freshEntityB kg e = true) :
    indicesConsistent (kg.add_entity e) := by
  obtain ⟨hType, ⟨hName1, hName2⟩, hRel⟩ := hinv
  have hfid : alGet kg.entities e.id = none := by
    simp [freshEntityB, Option.isNone_iff_eq_none] at hfresh
    exact hfresh.1
  have hfnames : ∀ s ∈ e.name :: e.aliases,
      alGet kg.entity_name_index s = none := by
    simp only [freshEntityB, Bool.and_eq_true, List.all_eq_true,
      Option.isNone_iff_eq_none] at hfresh
    exact fun s hs => hfresh.2 s hs
  refine ⟨?_, ⟨?_, ?_⟩, ?_⟩
  · -- type→entity-ids index
    intro t id
    rw [add_entity_type_index, add_entity_entities, alGet_idxAdd,
      alGet_alPut]
    by_cases hid : id = e.id
    · by_cases ht : t = e.type
      · rw [if_pos ht, if_pos hid]
        simp only [Option.getD_some, mem_setAdd]
        constructor
        · intro _
          exact ⟨e, rfl, ht.symm⟩
        · intro _
          exact Or.inr hid
      · rw [if_neg ht, if_pos hid]
        constructor
        · intro hmem
          obtain ⟨e', he', _⟩ := (hType t id).mp hmem
          rw [hid, hfid] at he'
          cases he'
        · rintro ⟨e', he', ht'⟩
          injection he' with h
          subst h
          exact absurd ht'.symm ht
    · by_cases ht : t = e.type
      · subst ht
        rw [if_pos rfl, if_neg hid]
        simp only [Option.getD_some, mem_setAdd]
        constructor
        · rintro (hmem | hcontra)
          · exact (hType e.type id).mp hmem
          · exact absurd hcontra hid
        · intro hx
          exact Or.inl ((hType e.type id).mpr hx)
      · rw [if_neg ht, if_neg hid]
        exact hType t id
  · -- name index, forward part
    intro id e' he'
    rw [add_entity_entities, alGet_alPut] at he'
    rw [add_entity_name_index]
    by_cases hid : id = e.id
    · rw [if_pos hid] at he'
      injection he' with h
      subst h
      constructor
      · rw [alGet_foldl_put, if_pos (List.mem_cons_self _ _), hid]
      · intro a ha
        rw [alGet_foldl_put,
          if_pos (List.mem_cons_of_mem _ ha), hid]
    · rw [if_neg hid] at he'
      obtain ⟨hn, has⟩ := hName1 id e' he'
      constructor
      · rw [alGet_foldl_put, if_neg]
        · exact hn
        · intro hmem
          rw [hfnames e'.name hmem] at hn
          cases hn
      · intro a ha
        rw [alGet_foldl_put, if_neg]
        · exact has a ha
        · intro hmem
          have hc := has a ha
          rw [hfnames a hmem] at hc
          cases hc
  · -- name index, backward part
    intro n id hn
    rw [add_entity_name_index, alGet_foldl_put] at hn
    rw [add_entity_entities]
    by_cases hmem : n ∈ e.name :: e.aliases
    · rw [if_pos hmem] at hn
      injection hn with h
      refine ⟨e, ?_, ?_⟩
      · rw [alGet_alPut, if_pos h.symm]
      · simpa [List.mem_cons] using hmem
    · rw [if_neg hmem] at hn
      obtain ⟨e', he', hcase⟩ := hName2 n id hn
      refine ⟨e', ?_, hcase⟩
      rw [alGet_alPut, if_neg]
      · exact he'
      · intro hid
        subst hid
        rw [hfid] at he'
        cases he'
  · -- type→relation-ids index, untouched
    intro t id
    rw [add_entity_rel_type_index, add_entity_relations]
    exact hRel t id

theorem add_relation_ok (kg : KnowledgeGraph) (r : Relation)
    (hh : alHas kg.entities r.head_entity_id = true)
    (ht : alHas kg.entities r.tail_entity_id = true) :
    kg.add_relation r =
      ({ kg with
          relations := alPut kg.relations r.id r
          graphEdges := kg.graphEdges ++
            [⟨r.head_entity_id, r.tail_entity_id, r.id, r.type,
              r.properties, r.confidence⟩]
          relation_type_index :=
            idxAdd kg.relation_type_index r.type r.id }, none) := by
  simp [KnowledgeGraph.add_relation, hh, ht]

theorem add_relation_preserves_indicesConsistent (kg : KnowledgeGraph)
    (r : Relation) (hinv : indicesConsistent kg)
    (hvalid : validRelB kg r = true) :
    indicesConsistent (kg.add_relation r).1 := by
  obtain ⟨hType, hName, hRel⟩ := hinv
  simp only [validRelB, Bool.and_eq_true, Option.isNone_iff_eq_none]
    at hvalid
  obtain ⟨⟨hfid, hh⟩, htl⟩ := hvalid
  rw [add_relation_ok kg r hh htl]
  refine ⟨hType, hName, ?_⟩
  intro t id
  simp only
  rw [alGet_idxAdd, alGet_alPut]
  by_cases hid : id = r.id
  · by_cases ht : t = r.type
    · subst ht
      rw [if_pos rfl, if_pos hid]
      simp only [Option.getD_some, mem_setAdd]
      constructor
      · intro _
        exact ⟨r, rfl, rfl⟩
      · intro _
        exact Or.inr hid
    · rw [if_neg ht, if_pos hid]
      constructor
      · intro hmem
        obtain ⟨r', hr', _⟩ := (hRel t id).mp hmem
        rw [hid, hfid] at hr'
        cases hr'
      · rintro ⟨r', hr', ht'⟩
        injection hr' with h
        subst h
        exact absurd ht'.symm ht
  · by_cases ht : t = r.type
    · subst ht
      rw [if_pos rfl, if_neg hid]
      simp only [Option.getD_some, mem_setAdd]
      constructor
      · rintro (hmem | hcontra)
        · exact (hRel r.type id).mp hmem
        · exact absurd hcontra hid
      · intro hx
        exact Or.inl ((hRel r.type id).mpr hx)
    · rw [if_neg ht, if_neg hid]
      exact hRel t id

theorem emptyKG_indicesConsistent : indicesConsistent KnowledgeGraph.emptyKG := by
  refine ⟨?_, ⟨?_, ?_⟩, ?_⟩ <;> intro a b <;>
    simp [KnowledgeGraph.emptyKG, alGet]

/-! ### Operation sequences on the store -/

/-- One mutating store call. -/
inductive StoreOp where
  | addE (e : Entity)
  | addR (r : Relation)
  | clearOp

/-- Execute one call (for `add_relation`, keep the post-call state whether
or not the call raised). -/
def applyOp (kg : KnowledgeGraph) : StoreOp → KnowledgeGraph
  | .addE e => kg.add_entity e
  | .addR r => (kg.add_relation r).1
  | .clearOp => kg.clear

/-- Execute a sequence of calls. -/
def applySeq (kg : KnowledgeGraph) (ops : List StoreOp) : KnowledgeGraph :=
  ops.foldl applyOp kg

/-- Collision-freedom/validity of one call in a given state. -/
def opOkB (kg : KnowledgeGraph) : StoreOp → Bool
  | .addE e => freshEntityB kg e
  | .addR r => validRelB kg r
  | .clearOp => true

/-- Stepwise validity of a call sequence. -/
def validSeqB : KnowledgeGraph → List StoreOp → Bool
  | _, [] => true
  | kg, op :: rest => opOkB kg op && validSeqB (applyOp kg op) rest

theorem applyOp_preserves_indicesConsistent (kg : KnowledgeGraph)
    (op : StoreOp) (hinv : indicesConsistent kg)
    (hok : opOkB kg op = true) : indicesConsistent (applyOp kg op) := by
  cases op with
  | addE e => exact add_entity_preserves_indicesConsistent kg e hinv hok
  | addR r => exact add_relation_preserves_indicesConsistent kg r hinv hok
  | clearOp => exact emptyKG_indicesConsistent

theorem validSeq_indicesConsistent (kg : KnowledgeGraph)
    (ops : List StoreOp) (hinv : indicesConsistent kg)
    (hval : validSeqB kg ops = true) :
    indicesConsistent (applySeq kg ops) := by
  induction ops generalizing kg with
  | nil => exact hinv
  | cons op rest ih =>
      simp only [validSeqB, Bool.and_eq_true] at hval
      exact ih (applyOp kg op)
        (applyOp_preserves_indicesConsistent kg op hinv hval.1) hval.2

/-- C2 (amended): starting from an empty store, after any sequence of
`add_entity` calls whose ids and name/alias strings do not collide with
present entries, succeeding `add_relation` calls with fresh relation
ids, and `clear` calls, all three derived indices are in bijection with
the live entity/relation maps. -/
theorem store_indices_biject_after_collision_free_ops (ops : List StoreOp)
    (h : validSeqB KnowledgeGraph.emptyKG ops = true) :
    indicesConsistent (applySeq KnowledgeGraph.emptyKG ops) :=
  validSeq_indicesConsistent KnowledgeGraph.emptyKG ops
    emptyKG_indicesConsistent h

/-- A concrete collision-free call sequence for the C2 witness. -/
def c2WitnessOps : List StoreOp :=
  [.addE ⟨"a", "Ann", "Person", [], ["Annie"]⟩,
   .addE ⟨"b", "Beta Corp", "Company", [], []⟩,
   .addR ⟨"r", "works_for", "a", "b", [], 9/10⟩,
   .clearOp,
   .addE ⟨"c", "Carol", "Person", [], []⟩]

/-- Witness for the amended C2 theorem at a concrete call sequence. -/
theorem store_indices_biject_witness :
    validSeqB KnowledgeGraph.emptyKG c2WitnessOps = true ∧
    indicesConsistent (applySeq KnowledgeGraph.emptyKG c2WitnessOps) :=
  ⟨by decide, store_indices_biject_after_collision_free_ops c2WitnessOps (by decide)⟩

/-! ## SimilarityCalculator (`kg_core/knowledge_mapping/similarity_calculator.py`)

The `levenshtein` C library call and the bottom-up DP of `_lcs_similarity`
are embedded as the standard structural recurrences computing the same
functions (edit distance, LCS length).  The cosine similarity uses
`math.sqrt` and is therefore modelled over `ℝ`.
-/

/-- Levenshtein edit distance (insert/delete/substitute, unit costs). -/
def levDist : List Char → List Char → ℕ
  | [], ys => ys.length
  | x :: xs, [] => (x :: xs).length
  | x :: xs, y :: ys =>
      if x = y then levDist xs ys
      else 1 + min (levDist xs ys)
        (min (levDist xs (y :: ys)) (levDist (x :: xs) ys))
termination_by xs ys => xs.length + ys.length

/-- Length of a longest common subsequence (`lcs_length` DP). -/
def lcsLen : List Char → List Char → ℕ
  | [], _ => 0
  | _ :: _, [] => 0
  | x :: xs, y :: ys =>
      if x = y then 1 + lcsLen xs ys
      else max (lcsLen (x :: xs) ys) (lcsLen xs (y :: ys))
termination_by xs ys => xs.length + ys.length

/-- `_levenshtein_similarity`: `1 − distance/max_len` (`1.0` if both
strings are empty). -/
noncomputable def levenshteinSimilarity (s1 s2 : String) : ℝ :=
  let maxLen := max s1.length s2.length
  if maxLen = 0 then 1
  else 1 - (levDist s1.toList s2.toList : ℝ) / (maxLen : ℝ)

/-- `get_ngrams`: the set of character n-grams of a text (the whole text
if it is shorter than `n`). -/
def getNgrams (text : String) (n : ℕ) : Finset String :=
  if text.length < n then {text}
  else ((List.range (text.length - n + 1)).map
    (fun i => String.mk ((text.toList.drop i).take n))).toFinset

/-- `_jaccard_similarity`: n-gram-set Jaccard similarity of the
lower-cased strings. -/
noncomputable def jaccardSimilarity (s1 s2 : String) (n : ℕ) : ℝ :=
  if 0 < ((getNgrams s1.toLower n ∪ getNgrams s2.toLower n).card) then
    (((getNgrams s1.toLower n ∩ getNgrams s2.toLower n).card : ℕ) : ℝ) /
      (((getNgrams s1.toLower n ∪ getNgrams s2.toLower n).card : ℕ) : ℝ)
  else 0

/-- `get_char_freq`: character frequency of the lower-cased string. -/
def charFreq (s : String) (c : Char) : ℕ :=
  s.toLower.toList.count c

/-- The support of the character-frequency counter. -/
def charKeys (s : String) : Finset Char :=
  s.toLower.toList.toFinset

/-- `_cosine_similarity`, dot product part: iterates over the characters
common to both frequency counters. -/
noncomputable def cosineDot (s1 s2 : String) : ℝ :=
  ∑ c ∈ charKeys s1 ∩ charKeys s2,
    (charFreq s1 c : ℝ) * (charFreq s2 c : ℝ)

/-- Norm of the character-frequency vector (`math.sqrt` of the sum of
squared frequencies). -/
noncomputable def cosineNorm (s : String) : ℝ :=
  Real.sqrt (∑ c ∈ charKeys s, (charFreq s c : ℝ) ^ 2)

/-- `_cosine_similarity`, assembled from the dot product and the norms
exactly as in the source (`0.0` if either norm vanishes). -/
noncomputable def cosineSimilarity (s1 s2 : String) : ℝ :=
  if cosineNorm s1 = 0 ∨ cosineNorm s2 = 0 then 0
  else cosineDot s1 s2 / (cosineNorm s1 * cosineNorm s2)

/-- `_lcs_similarity`: `2·LCS/(len1+len2)` (`0.0` if both empty). -/
noncomputable def lcsSimilarity (s1 s2 : String) : ℝ :=
  if 0 < s1.length + s2.length then
    (2 * lcsLen s1.toList s2.toList : ℝ) / ((s1.length + s2.length : ℕ) : ℝ)
  else 0

/-- `_combined_string_similarity`: weighted sum
`0.3·lev + 0.3·jaccard + 0.2·cosine + 0.2·lcs`. -/
noncomputable def combinedStringSimilarity (s1 s2 : String) : ℝ :=
  levenshteinSimilarity s1 s2 * (3/10) + jaccardSimilarity s1 s2 2 * (3/10) +
    cosineSimilarity s1 s2 * (2/10) + lcsSimilarity s1 s2 * (2/10)

/-- The five similarity methods accepted by `string_similarity` (an
unknown method name raises `ValueError` and is outside this type). -/
inductive SimMethod where
  | levenshtein | jaccard | cosine | lcs | combined
deriving DecidableEq

/-- `string_similarity`: either-empty short-circuits to `0.0`, exact
equality short-circuits to `1.0`, then dispatch on the method. -/
noncomputable def stringSimilarity (s1 s2 : String) (m : SimMethod) : ℝ :=
  if s1 = "" ∨ s2 = "" then 0
  else if s1 = s2 then 1
  else match m with
    | .levenshtein => levenshteinSimilarity s1 s2
    | .jaccard => jaccardSimilarity s1 s2 2
    | .cosine => cosineSimilarity s1 s2
    | .lcs => lcsSimilarity s1 s2
    | .combined => combinedStringSimilarity s1 s2

/-! ### Symmetry and bounds of the similarity primitives -/

theorem levDist_symm : ∀ xs ys : List Char, levDist xs ys = levDist ys xs
  | [], [] => rfl
  | [], _ :: _ => by simp [levDist]
  | _ :: _, [] => by simp [levDist]
  | x :: xs, y :: ys => by
      have h1 := levDist_symm xs ys
      have h2 := levDist_symm xs (y :: ys)
      have h3 := levDist_symm (x :: xs) ys
      by_cases h : x = y
      · subst h
        simp [levDist, h1]
      · rw [levDist, levDist, if_neg h, if_neg (Ne.symm h), h1, h2, h3]
        omega
termination_by xs ys => xs.length + ys.length

theorem lcsLen_symm : ∀ xs ys : List Char, lcsLen xs ys = lcsLen ys xs
  | [], [] => rfl
  | [], _ :: _ => by simp [lcsLen]
  | _ :: _, [] => by simp [lcsLen]
  | x :: xs, y :: ys => by
      have h1 := lcsLen_symm xs ys
      have h2 := lcsLen_symm xs (y :: ys)
      have h3 := lcsLen_symm (x :: xs) ys
      by_cases h : x = y
      · subst h
        simp [lcsLen, h1]
      · rw [lcsLen, lcsLen, if_neg h, if_neg (Ne.symm h), h2, h3]
        omega
termination_by xs ys => xs.length + ys.length

theorem levDist_le_max : ∀ xs ys : List Char,
    levDist xs ys ≤ max xs.length ys.length
  | [], ys => by simp [levDist]
  | x :: xs, [] => by simp [levDist]
  | x :: xs, y :: ys => by
      have h1 := levDist_le_max xs ys
      by_cases h : x = y
      · rw [levDist, if_pos h]
        simp only [List.length_cons]
        omega
      · rw [levDist, if_neg h]
        simp only [List.length_cons]
        omega
termination_by xs ys => xs.length + ys.length

theorem lcsLen_le_min : ∀ xs ys : List Char,
    lcsLen xs ys ≤ min xs.length ys.length
  | [], ys => by simp [lcsLen]
  | x :: xs, [] => by simp [lcsLen]
  | x :: xs, y :: ys => by
      have h1 := lcsLen_le_min xs ys
      have h2 := lcsLen_le_min xs (y :: ys)
      have h3 := lcsLen_le_min (x :: xs) ys
      by_cases h : x = y
      · rw [lcsLen, if_pos h]
        simp only [List.length_cons] at *
        omega
      · rw [lcsLen, if_neg h]
        simp only [List.length_cons] at *
        omega
termination_by xs ys => xs.length + ys.length

theorem levenshteinSimilarity_symm (s1 s2 : String) :
    levenshteinSimilarity s1 s2 = levenshteinSimilarity s2 s1 := by
  unfold levenshteinSimilarity
  rw [levDist_symm, Nat.max_comm]

theorem levenshteinSimilarity_bounds (s1 s2 : String) :
    0 ≤ levenshteinSimilarity s1 s2 ∧ levenshteinSimilarity s1 s2 ≤ 1 := by
  unfold levenshteinSimilarity
  by_cases h : max s1.length s2.length = 0
  · simp [h]
  · rw [if_neg h]
    have hpos : (0 : ℝ) < (max s1.length s2.length : ℕ) := by
      exact_mod_cast Nat.pos_of_ne_zero h
    have hle : (levDist s1.toList s2.toList : ℝ) ≤ (max s1.length s2.length : ℕ) := by
      have := levDist_le_max s1.toList s2.toList
      have hlen1 : s1.toList.length = s1.length := rfl
      have hlen2 : s2.toList.length = s2.length := rfl
      rw [hlen1, hlen2] at this
      exact_mod_cast this
    have hnn : (0 : ℝ) ≤ (levDist s1.toList s2.toList : ℝ) := by positivity
    constructor
    · have : (levDist s1.toList s2.toList : ℝ) / (max s1.length s2.length : ℕ) ≤ 1 :=
        (div_le_one hpos).mpr hle
      linarith
    · have : 0 ≤ (levDist s1.toList s2.toList : ℝ) / (max s1.length s2.length : ℕ) :=
        div_nonneg hnn hpos.le
      linarith

theorem jaccardSimilarity_symm (s1 s2 : String) (n : ℕ) :
    jaccardSimilarity s1 s2 n = jaccardSimilarity s2 s1 n := by
  unfold jaccardSimilarity
  rw [Finset.inter_comm, Finset.union_comm]

theorem jaccardSimilarity_bounds (s1 s2 : String) (n : ℕ) :
    0 ≤ jaccardSimilarity s1 s2 n ∧ jaccardSimilarity s1 s2 n ≤ 1 := by
  unfold jaccardSimilarity
  by_cases h : 0 < (getNgrams s1.toLower n ∪ getNgrams s2.toLower n).card
  · rw [if_pos h]
    have hle : ((getNgrams s1.toLower n ∩ getNgrams s2.toLower n).card : ℝ) ≤
        ((getNgrams s1.toLower n ∪ getNgrams s2.toLower n).card : ℝ) := by
      exact_mod_cast Finset.card_le_card
        (Finset.inter_subset_union)
    have hpos : (0 : ℝ) < ((getNgrams s1.toLower n ∪ getNgrams s2.toLower n).card : ℝ) := by
      exact_mod_cast h
    constructor
    · positivity
    · exact (div_le_one hpos).mpr hle
  · rw [if_neg h]
    norm_num

theorem cosineDot_symm (s1 s2 : String) :
    cosineDot s1 s2 = cosineDot s2 s1 := by
  unfold cosineDot
  rw [Finset.inter_comm]
  exact Finset.sum_congr rfl (fun c _ => mul_comm _ _)

theorem cosineSimilarity_symm (s1 s2 : String) :
    cosineSimilarity s1 s2 = cosineSimilarity s2 s1 := by
  unfold cosineSimilarity
  rw [cosineDot_symm]
  by_cases h : cosineNorm s1 = 0 ∨ cosineNorm s2 = 0
  · rw [if_pos h, if_pos (Or.symm h)]
  · rw [if_neg h, if_neg (fun hc => h (Or.symm hc)), mul_comm]

theorem charFreq_eq_zero {s : String} {c : Char} (h : c ∉ charKeys s) :
    charFreq s c = 0 := by
  unfold charKeys at h
  rw [List.mem_toFinset] at h
  unfold charFreq
  exact List.count_eq_zero.mpr h

theorem cosineDot_eq_union (s1 s2 : String) :
    cosineDot s1 s2 = ∑ c ∈ charKeys s1 ∪ charKeys s2,
      (charFreq s1 c : ℝ) * (charFreq s2 c : ℝ) := by
  unfold cosineDot
  refine Finset.sum_subset Finset.inter_subset_union ?_
  intro c _ hc
  rw [Finset.mem_inter, not_and_or] at hc
  rcases hc with hc | hc
  · rw [charFreq_eq_zero hc]
    norm_num
  · rw [charFreq_eq_zero hc]
    norm_num

theorem cosineNormSq_eq_union (s t : String) :
    ∑ c ∈ charKeys s, (charFreq s c : ℝ) ^ 2 =
      ∑ c ∈ charKeys s ∪ charKeys t, (charFreq s c : ℝ) ^ 2 := by
  refine Finset.sum_subset Finset.subset_union_left ?_
  intro c _ hc
  rw [charFreq_eq_zero hc]
  norm_num

theorem cosineSimilarity_bounds (s1 s2 : String) :
    0 ≤ cosineSimilarity s1 s2 ∧ cosineSimilarity s1 s2 ≤ 1 := by
  unfold cosineSimilarity
  by_cases h : cosineNorm s1 = 0 ∨ cosineNorm s2 = 0
  · rw [if_pos h]
    norm_num
  · rw [if_neg h]
    push_neg at h
    have h1 : 0 < cosineNorm s1 :=
      lt_of_le_of_ne (Real.sqrt_nonneg _) (Ne.symm h.1)
    have h2 : 0 < cosineNorm s2 :=
      lt_of_le_of_ne (Real.sqrt_nonneg _) (Ne.symm h.2)
    have hdot : 0 ≤ cosineDot s1 s2 := by
      unfold cosineDot
      exact Finset.sum_nonneg (fun c _ => by positivity)
    constructor
    · exact div_nonneg hdot (mul_nonneg h1.le h2.le)
    · rw [div_le_one (mul_pos h1 h2)]
      rw [cosineDot_eq_union]
      calc ∑ c ∈ charKeys s1 ∪ charKeys s2,
            (charFreq s1 c : ℝ) * (charFreq s2 c : ℝ)
          ≤ Real.sqrt (∑ c ∈ charKeys s1 ∪ charKeys s2, (charFreq s1 c : ℝ) ^ 2) *
            Real.sqrt (∑ c ∈ charKeys s1 ∪ charKeys s2, (charFreq s2 c : ℝ) ^ 2) :=
            Real.sum_mul_le_sqrt_mul_sqrt _ _ _
        _ = cosineNorm s1 * cosineNorm s2 := by
            have e1 : ∑ c ∈ charKeys s1 ∪ charKeys s2, (charFreq s1 c : ℝ) ^ 2
                = ∑ c ∈ charKeys s1, (charFreq s1 c : ℝ) ^ 2 :=
              (cosineNormSq_eq_union s1 s2).symm
            have e2 : ∑ c ∈ charKeys s1 ∪ charKeys s2, (charFreq s2 c : ℝ) ^ 2
                = ∑ c ∈ charKeys s2, (charFreq s2 c : ℝ) ^ 2 := by
              rw [Finset.union_comm]
              exact (cosineNormSq_eq_union s2 s1).symm
            unfold cosineNorm
            rw [e1, e2]

theorem lcsSimilarity_symm (s1 s2 : String) :
    lcsSimilarity s1 s2 = lcsSimilarity s2 s1 := by
  unfold lcsSimilarity
  rw [lcsLen_symm, Nat.add_comm s1.length s2.length]

theorem lcsSimilarity_bounds (s1 s2 : String) :
    0 ≤ lcsSimilarity s1 s2 ∧ lcsSimilarity s1 s2 ≤ 1 := by
  unfold lcsSimilarity
  by_cases h : 0 < s1.length + s2.length
  · rw [if_pos h]
    have hlcs : lcsLen s1.toList s2.toList ≤ min s1.length s2.length :=
      lcsLen_le_min s1.toList s2.toList
    have hpos : (0 : ℝ) < ((s1.length + s2.length : ℕ) : ℝ) := by
      exact_mod_cast h
    constructor
    · positivity
    · rw [div_le_one hpos]
      have : 2 * lcsLen s1.toList s2.toList ≤ s1.length + s2.length := by
        omega
      exact_mod_cast this
  · rw [if_neg h]
    norm_num

theorem combinedStringSimilarity_symm (s1 s2 : String) :
    combinedStringSimilarity s1 s2 = combinedStringSimilarity s2 s1 := by
  unfold combinedStringSimilarity
  rw [levenshteinSimilarity_symm, jaccardSimilarity_symm,
    cosineSimilarity_symm, lcsSimilarity_symm]

theorem combinedStringSimilarity_bounds (s1 s2 : String) :
    0 ≤ combinedStringSimilarity s1 s2 ∧ combinedStringSimilarity s1 s2 ≤ 1 := by
  obtain ⟨a1, a2⟩ := levenshteinSimilarity_bounds s1 s2
  obtain ⟨b1, b2⟩ := jaccardSimilarity_bounds s1 s2 2
  obtain ⟨c1, c2⟩ := cosineSimilarity_bounds s1 s2
  obtain ⟨d1, d2⟩ := lcsSimilarity_bounds s1 s2
  unfold combinedStringSimilarity
  constructor <;> nlinarith

/-- C9: every string-similarity method is symmetric. -/
theorem stringSimilarity_symm (m : SimMethod) (a b : String) :
    stringSimilarity a b m = stringSimilarity b a m := by
  unfold stringSimilarity
  by_cases h1 : a = "" ∨ b = ""
  · rw [if_pos h1, if_pos (Or.symm h1)]
  · rw [if_neg h1, if_neg (fun hc => h1 (Or.symm hc))]
    by_cases h2 : a = b
    · rw [if_pos h2, if_pos h2.symm]
    · rw [if_neg h2, if_neg (fun hc => h2 hc.symm)]
      cases m
      · exact levenshteinSimilarity_symm a b
      · exact jaccardSimilarity_symm a b 2
      · exact cosineSimilarity_symm a b
      · exact lcsSimilarity_symm a b
      · exact combinedStringSimilarity_symm a b

theorem stringSimilarity_bounds (m : SimMethod) (a b : String) :
    0 ≤ stringSimilarity a b m ∧ stringSimilarity a b m ≤ 1 := by
  unfold stringSimilarity
  by_cases h1 : a = "" ∨ b = ""
  · rw [if_pos h1]
    norm_num
  · rw [if_neg h1]
    by_cases h2 : a = b
    · rw [if_pos h2]
      norm_num
    · rw [if_neg h2]
      cases m
      · exact levenshteinSimilarity_bounds a b
      · exact jaccardSimilarity_bounds a b 2
      · exact cosineSimilarity_bounds a b
      · exact lcsSimilarity_bounds a b
      · exact combinedStringSimilarity_bounds a b

/-- C10: in `string_similarity`, the either-empty check precedes the
equality short-circuit: any empty argument (including two equal empty
strings) yields `0.0` for every method, and the `1.0` equality
short-circuit applies exactly to equal non-empty strings. -/
theorem stringSimilarity_empty_overrides_equality :
    (∀ (m : SimMethod) (s : String), stringSimilarity "" s m = 0) ∧
    (∀ (m : SimMethod) (s : String), stringSimilarity s "" m = 0) ∧
    (∀ m : SimMethod, stringSimilarity "" "" m = 0) ∧
    (∀ (m : SimMethod) (s : String), s ≠ "" → stringSimilarity s s m = 1) := by
  refine ⟨?_, ?_, ?_, ?_⟩
  · intro m s
    unfold stringSimilarity
    rw [if_pos (Or.inl rfl)]
  · intro m s
    unfold stringSimilarity
    rw [if_pos (Or.inr rfl)]
  · intro m
    unfold stringSimilarity
    rw [if_pos (Or.inl rfl)]
  · intro m s hs
    unfold stringSimilarity
    rw [if_neg (by simp [hs]), if_pos rfl]

/-- Witness for the equal-non-empty part of the C10 theorem at the
concrete string `"a"`. -/
theorem stringSimilarity_empty_overrides_equality_witness :
    ("a" : String) ≠ "" ∧ stringSimilarity "a" "a" SimMethod.combined = 1 :=
  ⟨by decide,
   stringSimilarity_empty_overrides_equality.2.2.2 SimMethod.combined "a" (by decide)⟩

/-! ### Structural / list / entity / context similarity -/

/-- `_list_similarity`: set-Jaccard of two value lists (`1.0` if both
empty, `0.0` if exactly one is empty). -/
noncomputable def listSimilarity (l1 l2 : List PropValue) : ℝ :=
  if l1 = [] ∧ l2 = [] then 1
  else if l1 = [] ∨ l2 = [] then 0
  else if 0 < (l1.toFinset ∪ l2.toFinset).card then
    ((l1.toFinset ∩ l2.toFinset).card : ℝ) / ((l1.toFinset ∪ l2.toFinset).card : ℝ)
  else 0

/-- Per-common-key value comparison of `structural_similarity`: strings
via `string_similarity` (default `combined`), lists via
`_list_similarity`, otherwise equality. -/
noncomputable def propValueSimilarity : PropValue → PropValue → ℝ
  | .pstr a, .pstr b => stringSimilarity a b .combined
  | .plist a, .plist b => listSimilarity a b
  | v1, v2 => if v1 = v2 then 1 else 0

/-- Value of a key that is known to be present (common keys only). -/
def propAt (p : List (String × PropValue)) (k : String) : PropValue :=
  (alGet p k).getD .pnone

/-- `structural_similarity`: key-set Jaccard (weight 0.5) plus average
per-common-key value similarity (weight 0.5). -/
noncomputable def structuralSimilarity (p1 p2 : List (String × PropValue)) : ℝ :=
  if p1 = [] ∧ p2 = [] then 1
  else if p1 = [] ∨ p2 = [] then 0
  else
    (if 0 < ((alKeys p1).toFinset ∪ (alKeys p2).toFinset).card then
      (((alKeys p1).toFinset ∩ (alKeys p2).toFinset).card : ℝ) /
        (((alKeys p1).toFinset ∪ (alKeys p2).toFinset).card : ℝ)
     else 0) * (5/10) +
    (if ((alKeys p1).toFinset ∩ (alKeys p2).toFinset).card ≠ 0 then
      (∑ k ∈ (alKeys p1).toFinset ∩ (alKeys p2).toFinset,
        propValueSimilarity (propAt p1 k) (propAt p2 k)) /
        (((alKeys p1).toFinset ∩ (alKeys p2).toFinset).card : ℝ)
     else 0) * (5/10)

/-- `entity_similarity`: weighted blend of name (0.4, combined string
similarity), type (0.3, exact match), properties (0.2, structural) and
aliases (0.1, set Jaccard, `0.0` when both alias sets are empty).  The
fusion engine passes exactly these four fields of each entity. -/
noncomputable def entitySimilarity (e1 e2 : Entity) : ℝ :=
  stringSimilarity e1.name e2.name .combined * (4/10) +
  (if e1.type = e2.type then (1 : ℝ) else 0) * (3/10) +
  structuralSimilarity e1.properties e2.properties * (2/10) +
  (if (e1.aliases.toFinset ∪ e2.aliases.toFinset) ≠ ∅ then
    ((e1.aliases.toFinset ∩ e2.aliases.toFinset).card : ℝ) /
      ((e1.aliases.toFinset ∪ e2.aliases.toFinset).card : ℝ)
   else 0) * (1/10)

/-- The stop-word list of `SimilarityCalculator._load_stop_words`. -/
def stopWords : List String :=
  ["的", "了", "在", "是", "我", "有", "和", "就", "不", "人", "都", "一",
   "个", "上", "也", "很", "到", "说", "要", "去", "你", "会", "着", "没有"]

/-- `extract_keywords` inside `context_similarity`: tokenize the
lower-cased text (`jieba.lcut`, supplied as the oracle `cut`), drop
stop words and single-character tokens. -/
def extractKeywords (cut : String → List String) (text : String) : Finset String :=
  ((cut text.toLower).filter
    (fun w => w ∉ stopWords ∧ 1 < w.length)).toFinset

/-- `context_similarity`: keyword-set Jaccard (`1.0` when both keyword
sets are empty, `0.0` when exactly one is).  `jieba.lcut` is an external
segmentation library, modelled as the oracle parameter `cut`. -/
def contextSimilarity (cut : String → List String) (c1 c2 : String) : ℚ :=
  if extractKeywords cut c1 = ∅ ∧ extractKeywords cut c2 = ∅ then 1
  else if extractKeywords cut c1 = ∅ ∨ extractKeywords cut c2 = ∅ then 0
  else if 0 < (extractKeywords cut c1 ∪ extractKeywords cut c2).card then
    ((extractKeywords cut c1 ∩ extractKeywords cut c2).card : ℚ) /
      ((extractKeywords cut c1 ∪ extractKeywords cut c2).card : ℚ)
  else 0

theorem listSimilarity_bounds (l1 l2 : List PropValue) :
    0 ≤ listSimilarity l1 l2 ∧ listSimilarity l1 l2 ≤ 1 := by
  unfold listSimilarity
  split
  · norm_num
  · split
    · norm_num
    · split
      · rename_i hu
        have hle : ((l1.toFinset ∩ l2.toFinset).card : ℝ) ≤
            ((l1.toFinset ∪ l2.toFinset).card : ℝ) := by
          exact_mod_cast Finset.card_le_card Finset.inter_subset_union
        have hpos : (0 : ℝ) < ((l1.toFinset ∪ l2.toFinset).card : ℝ) := by
          exact_mod_cast hu
        exact ⟨by positivity, (div_le_one hpos).mpr hle⟩
      · norm_num

theorem propValueSimilarity_bounds (v1 v2 : PropValue) :
    0 ≤ propValueSimilarity v1 v2 ∧ propValueSimilarity v1 v2 ≤ 1 := by
  cases v1 <;> cases v2 <;>
    first
      | exact stringSimilarity_bounds SimMethod.combined ..
      | exact listSimilarity_bounds ..
      | (simp only [propValueSimilarity]; split <;> norm_num)

theorem structuralSimilarity_bounds (p1 p2 : List (String × PropValue)) :
    0 ≤ structuralSimilarity p1 p2 ∧ structuralSimilarity p1 p2 ≤ 1 := by
  unfold structuralSimilarity
  split
  · norm_num
  · split
    · norm_num
    · have hkey : 0 ≤ (if 0 < ((alKeys p1).toFinset ∪ (alKeys p2).toFinset).card then
          (((alKeys p1).toFinset ∩ (alKeys p2).toFinset).card : ℝ) /
            (((alKeys p1).toFinset ∪ (alKeys p2).toFinset).card : ℝ)
         else 0) ∧ (if 0 < ((alKeys p1).toFinset ∪ (alKeys p2).toFinset).card then
          (((alKeys p1).toFinset ∩ (alKeys p2).toFinset).card : ℝ) /
            (((alKeys p1).toFinset ∪ (alKeys p2).toFinset).card : ℝ)
         else 0) ≤ 1 := by
        split
        · rename_i hu
          have hle : (((alKeys p1).toFinset ∩ (alKeys p2).toFinset).card : ℝ) ≤
              (((alKeys p1).toFinset ∪ (alKeys p2).toFinset).card : ℝ) := by
            exact_mod_cast Finset.card_le_card Finset.inter_subset_union
          have hpos : (0 : ℝ) <
              (((alKeys p1).toFinset ∪ (alKeys p2).toFinset).card : ℝ) := by
            exact_mod_cast hu
          exact ⟨by positivity, (div_le_one hpos).mpr hle⟩
        · norm_num
      have hval : 0 ≤ (if ((alKeys p1).toFinset ∩ (alKeys p2).toFinset).card ≠ 0 then
          (∑ k ∈ (alKeys p1).toFinset ∩ (alKeys p2).toFinset,
            propValueSimilarity (propAt p1 k) (propAt p2 k)) /
            (((alKeys p1).toFinset ∩ (alKeys p2).toFinset).card : ℝ)
         else 0) ∧ (if ((alKeys p1).toFinset ∩ (alKeys p2).toFinset).card ≠ 0 then
          (∑ k ∈ (alKeys p1).toFinset ∩ (alKeys p2).toFinset,
            propValueSimilarity (propAt p1 k) (propAt p2 k)) /
            (((alKeys p1).toFinset ∩ (alKeys p2).toFinset).card : ℝ)
         else 0) ≤ 1 := by
        split
        · rename_i hc
          have hpos : (0 : ℝ) <
              (((alKeys p1).toFinset ∩ (alKeys p2).toFinset).card : ℝ) := by
            exact_mod_cast Nat.pos_of_ne_zero hc
          have hsum0 : 0 ≤ ∑ k ∈ (alKeys p1).toFinset ∩ (alKeys p2).toFinset,
              propValueSimilarity (propAt p1 k) (propAt p2 k) :=
            Finset.sum_nonneg (fun k _ => (propValueSimilarity_bounds _ _).1)
          have hsum1 : (∑ k ∈ (alKeys p1).toFinset ∩ (alKeys p2).toFinset,
              propValueSimilarity (propAt p1 k) (propAt p2 k)) ≤
              (((alKeys p1).toFinset ∩ (alKeys p2).toFinset).card : ℝ) := by
            calc (∑ k ∈ (alKeys p1).toFinset ∩ (alKeys p2).toFinset,
                propValueSimilarity (propAt p1 k) (propAt p2 k))
                ≤ ∑ _k ∈ (alKeys p1).toFinset ∩ (alKeys p2).toFinset, (1 : ℝ) :=
                  Finset.sum_le_sum (fun k _ => (propValueSimilarity_bounds _ _).2)
              _ = (((alKeys p1).toFinset ∩ (alKeys p2).toFinset).card : ℝ) := by
                  simp
          exact ⟨div_nonneg hsum0 hpos.le, (div_le_one hpos).mpr hsum1⟩
        · norm_num
      constructor <;> nlinarith [hkey.1, hkey.2, hval.1, hval.2]

theorem entitySimilarity_bounds (e1 e2 : Entity) :
    0 ≤ entitySimilarity e1 e2 ∧ entitySimilarity e1 e2 ≤ 1 := by
  obtain ⟨a1, a2⟩ := stringSimilarity_bounds SimMethod.combined e1.name e2.name
  obtain ⟨b1, b2⟩ := structuralSimilarity_bounds e1.properties e2.properties
  have htype : (0 : ℝ) ≤ (if e1.type = e2.type then (1 : ℝ) else 0) ∧
      (if e1.type = e2.type then (1 : ℝ) else 0) ≤ 1 := by
    split <;> norm_num
  have halias : (0 : ℝ) ≤ (if (e1.aliases.toFinset ∪ e2.aliases.toFinset) ≠ ∅ then
        ((e1.aliases.toFinset ∩ e2.aliases.toFinset).card : ℝ) /
          ((e1.aliases.toFinset ∪ e2.aliases.toFinset).card : ℝ)
       else 0) ∧ (if (e1.aliases.toFinset ∪ e2.aliases.toFinset) ≠ ∅ then
        ((e1.aliases.toFinset ∩ e2.aliases.toFinset).card : ℝ) /
          ((e1.aliases.toFinset ∪ e2.aliases.toFinset).card : ℝ)
       else 0) ≤ 1 := by
    split
    · rename_i hne
      have hle : ((e1.aliases.toFinset ∩ e2.aliases.toFinset).card : ℝ) ≤
          ((e1.aliases.toFinset ∪ e2.aliases.toFinset).card : ℝ) := by
        exact_mod_cast Finset.card_le_card Finset.inter_subset_union
      have hpos : (0 : ℝ) < ((e1.aliases.toFinset ∪ e2.aliases.toFinset).card : ℝ) := by
        exact_mod_cast Finset.card_pos.mpr (Finset.nonempty_iff_ne_empty.mpr hne)
      exact ⟨by positivity, (div_le_one hpos).mpr hle⟩
    · norm_num
  unfold entitySimilarity
  constructor <;> nlinarith [htype.1, htype.2, halias.1, halias.2]

theorem contextSimilarity_bounds (cut : String → List String) (c1 c2 : String) :
    0 ≤ contextSimilarity cut c1 c2 ∧ contextSimilarity cut c1 c2 ≤ 1 := by
  unfold contextSimilarity
  split
  · norm_num
  · split
    · norm_num
    · split
      · rename_i hu
        have hle : ((extractKeywords cut c1 ∩ extractKeywords cut c2).card : ℚ) ≤
            ((extractKeywords cut c1 ∪ extractKeywords cut c2).card : ℚ) := by
          exact_mod_cast Finset.card_le_card Finset.inter_subset_union
        have hpos : (0 : ℚ) <
            ((extractKeywords cut c1 ∪ extractKeywords cut c2).card : ℚ) := by
          exact_mod_cast hu
        exact ⟨by positivity, (div_le_one hpos).mpr hle⟩
      · norm_num

/-! ## EntityFusion (`kg_demo/knowledge_fusion/entity_fusion.py`)

`kg_demo`'s `knowledge_mapping.similarity_calculator` module (imported
by the fusion engine) is not present under `src/`; its
`SimilarityCalculator` is modelled by the identically named `kg_core`
implementation embedded above, which is what the spec (§4.1) describes.

Python `set` iteration order is unspecified; wherever the code turns a
set back into a list (`list(set(...))`, `for key in all_keys`), the
model fixes first-occurrence order, which only affects tie-breaking
positions never observed by the claims. -/

/-- Python `max(l, key=f)`: first element with maximal key (`None`
models the `ValueError` on an empty sequence). -/
def pyMax {α β : Type} [LinearOrder β] (f : α → β) (l : List α) : Option α :=
  l.foldl (fun acc x =>
    match acc with
    | none => some x
    | some y => if f y < f x then some x else acc) none

/-- First-occurrence de-duplication (Python dict-key insertion order). -/
def pyDedup {α : Type} [DecidableEq α] (l : List α) : List α :=
  l.foldl (fun acc x => if x ∈ acc then acc else acc ++ [x]) []

/-- Python `float(value)` on property values: numbers convert to
themselves, booleans to 0/1 (`bool` is an `int` subclass).  On strings,
lists, dicts and `None` Python raises `ValueError`/`TypeError`; no
verified claim exercises those inputs, modelled as 0. -/
def pvFloat : PropValue → ℚ
  | .pnum q => q
  | .pbool b => if b then 1 else 0
  | _ => 0

/-- Most frequent value by stringified comparison, mapped back to the
first original value with that string (shared by the `vote`/mixed-type
merge branches). -/
def pyMostCommonValue (values : List PropValue) : PropValue :=
  match pyMax (fun s => (values.map pvStr).count s) (pyDedup (values.map pvStr)) with
  | some mc => (values.find? (fun v => pvStr v = mc)).getD (values.headD .pnone)
  | none => values.headD .pnone

/-- `EntityCluster` dataclass. -/
structure EntityCluster where
  cluster_id : String
  entities : List Entity
  representative_entity : Option Entity
  confidence : ℝ
  fusion_method : String

/-- Fusion-evidence dict (`method`, optional `source_count` and
`cluster_confidence` entries). -/
structure FusionEvidence where
  method : String
  source_count : Option ℕ
  cluster_confidence : Option ℝ

/-- `FusionResult` dataclass of the entity fusion engine. -/
structure FusionResult where
  fused_entity : Entity
  source_entities : List Entity
  confidence : ℚ
  fusion_evidence : FusionEvidence

/-- Indexing into the candidate list (indices come from `range(n)`, so
the default is never returned). -/
def entAt (l : List Entity) (i : ℕ) : Entity :=
  l.getD i ⟨"", "", "", [], []⟩

/-- The constructor default `similarity_threshold=0.8`. -/
noncomputable def entityFusionDefaultThreshold : ℝ := 8/10

open scoped Classical in
/-- One iteration of the outer dedup loop of
`identify_duplicate_entities`: skip visited seeds, scan all later
unvisited candidates against the seed `i` only, record the group if it
has more than one member, and mark everything visited. -/
noncomputable def dupStep (ents : List Entity) (thr : ℝ)
    (st : List (List ℕ) × List ℕ) (i : ℕ) : List (List ℕ) × List ℕ :=
  if i ∈ st.2 then st
  else
    let js := (List.range ents.length).filter (fun j =>
      decide (i < j) && decide (j ∉ st.2) &&
      decide (thr ≤ entitySimilarity (entAt ents i) (entAt ents j)))
    ((if 1 < (i :: js).length then st.1 ++ [i :: js] else st.1),
      st.2 ++ js ++ [i])

/-- `identify_duplicate_entities`: seed-based duplicate groups (indices),
empty for an input of at most one entity. -/
noncomputable def identifyDuplicateEntities (ents : List Entity) (thr : ℝ) :
    List (List ℕ) :=
  if ents.length ≤ 1 then []
  else ((List.range ents.length).foldl (dupStep ents thr) ([], [])).1

/-- `_calculate_cluster_confidence`: average pairwise entity similarity
(`1.0` for singletons, `0.0` guard if no comparisons). -/
noncomputable def entityPairSimilarities (l : List Entity) : List ℝ :=
  ((List.range l.length).map (fun i =>
    ((List.range l.length).filter (fun j => decide (i < j))).map (fun j =>
      entitySimilarity (entAt l i) (entAt l j)))).flatten

/-- Cluster confidence of the entity fusion engine. -/
noncomputable def calculateClusterConfidenceE (l : List Entity) : ℝ :=
  if l.length = 1 then 1
  else if 0 < (entityPairSimilarities l).length then
    (entityPairSimilarities l).sum / ((entityPairSimilarities l).length : ℝ)
  else 0

/-- `str.isupper()`: at least one cased character and no lower-case
character. -/
def pyIsUpper (s : String) : Bool :=
  s.toList.any (fun c => c.isUpper || c.isLower) &&
    s.toList.all (fun c => !c.isLower)

/-- `_select_representative_entity` scoring: `0.1·len(name) +
0.2·#properties (if any) + 0.1·#aliases (if any) +
0.5·float(properties["confidence"]) (if present)`. -/
def entityRepScore (e : Entity) : ℚ :=
  (e.name.length : ℚ) * (1/10) +
  (if e.properties ≠ [] then (e.properties.length : ℚ) * (2/10) else 0) +
  (if e.aliases ≠ [] then (e.aliases.length : ℚ) * (1/10) else 0) +
  (if alHas e.properties "confidence" then
    pvFloat ((alGet e.properties "confidence").getD (.pnum 0)) * (5/10)
   else 0)

/-- `_select_representative_entity`: the single member, else the first
highest-scoring member. -/
def selectRepresentativeEntity (l : List Entity) : Option Entity :=
  match l with
  | [e] => some e
  | _ => pyMax entityRepScore l

/-- `_fuse_names`: single distinct name wins; otherwise the longest
non-abbreviation (not all-caps of length ≤ 5), falling back to the most
frequent name. -/
def fuseNames (names : List String) : String :=
  if names = [] then ""
  else
    match pyDedup names with
    | [u] => u
    | unique =>
        match pyMax (fun nm : String => nm.length)
          (unique.filter (fun nm => !(pyIsUpper nm && decide (nm.length ≤ 5)))) with
        | some best => best
        | none => (pyMax (fun nm => names.count nm) unique).getD ""

/-- The configured `type_resolution.strategy` (`most_specific`). -/
def entityTypeStrategy : String := "most_specific"

/-- `_fuse_types`: `vote` picks the most frequent distinct type,
`most_specific` the longest distinct type name, anything else votes;
empty input yields `"Unknown"`. -/
def fuseTypes (strategy : String) (types : List String) : String :=
  if types = [] then "Unknown"
  else if strategy = "vote" then
    (pyMax (fun t => types.count t) (pyDedup types)).getD "Unknown"
  else if strategy = "most_specific" then
    (pyMax (fun t : String => t.length) (pyDedup types)).getD "Unknown"
  else
    (pyMax (fun t => types.count t) (pyDedup types)).getD "Unknown"

/-- Type test `isinstance(v, str)`. -/
def isStrPV : PropValue → Bool
  | .pstr _ => true
  | _ => false

/-- Type test `isinstance(v, (int, float))` (`bool` is an `int`
subclass in Python). -/
def isNumericPV : PropValue → Bool
  | .pnum _ => true
  | .pbool _ => true
  | _ => false

/-- Type test `isinstance(v, list)`. -/
def isListPV : PropValue → Bool
  | .plist _ => true
  | _ => false

/-- `_fuse_string_values`: the single distinct value, else the most
frequent. -/
def fuseStringValues (values : List PropValue) : PropValue :=
  match pyDedup values with
  | [u] => u
  | unique => (pyMax (fun v => values.count v) unique).getD .pnone

/-- `_fuse_numeric_values`: arithmetic mean. -/
def fuseNumericValues (values : List PropValue) : PropValue :=
  .pnum ((values.map pvFloat).sum / (values.length : ℚ))

/-- `_fuse_list_values` under the configured rules
(`merge_lists=True`, `deduplicate=True`): concatenation with
first-occurrence de-duplication; otherwise the longest list. -/
def fuseListValues (mergeLists dedup : Bool) (values : List PropValue) :
    PropValue :=
  if mergeLists then
    if dedup then
      .plist (pyDedup ((values.map (fun v =>
        match v with | .plist l => l | _ => [])).flatten))
    else
      .plist ((values.map (fun v =>
        match v with | .plist l => l | _ => [])).flatten)
  else
    (pyMax (fun v => match v with | .plist l => l.length | _ => 0) values).getD .pnone

/-- `_fuse_property_values`: dispatch on the common runtime type of the
values (strings → most frequent, numbers → mean, lists → merged,
mixed → most frequent stringified). -/
def fusePropertyValues (values : List PropValue) : PropValue :=
  match values with
  | [] => .pnone
  | [v] => v
  | _ =>
      if values.all isStrPV then fuseStringValues values
      else if values.all isNumericPV then fuseNumericValues values
      else if values.all isListPV then fuseListValues true true values
      else pyMostCommonValue values

/-- `_fuse_properties`: per-key fusion over the union of all keys (the
key set is iterated in first-occurrence order). -/
def fuseProperties (propLists : List (List (String × PropValue))) :
    List (String × PropValue) :=
  if propLists = [] then []
  else
    (pyDedup ((propLists.map alKeys).flatten)).foldl (fun acc k =>
      match propLists.filterMap (fun props =>
        if props ≠ [] then alGet props k else none) with
      | [] => acc
      | values => alPut acc k (fusePropertyValues values)) []

/-- `_create_fused_entity`: best name, fused type, per-key fused
properties, and the de-duplicated union of all aliases plus all
non-winning names; the fresh `uuid4` id is the opaque `"uuid"`. -/
def createFusedEntity (ents : List Entity) : Entity :=
  { id := "uuid"
    name := fuseNames (ents.map (·.name))
    type := fuseTypes entityTypeStrategy (ents.map (·.type))
    properties := fuseProperties (ents.map (·.properties))
    aliases := pyDedup ((ents.map (fun e =>
      e.aliases ++ (if e.name ≠ fuseNames (ents.map (·.name))
        then [e.name] else []))).flatten) }

/-- `EntityFusion._calculate_fusion_confidence`: weighted blend of the
source-count factor (`min(1, n/5)`, weight 0.3), property completeness
(weight 0.4, `0.5` if the sources have no properties) and name/type
consistency (weight 0.3), capped at `1.0`; `1.0` for singletons. -/
def calculateFusionConfidenceE (source : List Entity) (fused : Entity) : ℚ :=
  if source.length = 1 then 1
  else
    min
      ((min 1 ((source.length : ℚ) / 5)) * (3/10) +
       (if 0 < (source.map (fun e => e.properties.length)).sum then
          (fused.properties.length : ℚ) /
            (((source.map (fun e => e.properties.length)).sum : ℕ) : ℚ)
        else 1/2) * (4/10) +
       (((if (pyDedup (source.map (·.name))).length = 1 then (1 : ℚ) else 0) +
         (if (pyDedup (source.map (·.type))).length = 1 then (1 : ℚ) else 0)) / 2) *
         (3/10))
      1

/-- `fuse_entity_cluster`: a singleton cluster is returned unchanged
with confidence `1.0`; a real cluster is merged. -/
noncomputable def fuseEntityCluster (cluster : EntityCluster) : FusionResult :=
  if cluster.entities.length = 1 then
    { fused_entity := cluster.entities.headD ⟨"", "", "", [], []⟩
      source_entities := cluster.entities
      confidence := 1
      fusion_evidence := ⟨"no_fusion_needed", none, none⟩ }
  else
    { fused_entity := createFusedEntity cluster.entities
      source_entities := cluster.entities
      confidence := calculateFusionConfidenceE cluster.entities
        (createFusedEntity cluster.entities)
      fusion_evidence := ⟨"multi_entity_fusion", some cluster.entities.length,
        some cluster.confidence⟩ }

open scoped Classical in
/-- `cluster_entities`: one similarity-based cluster per duplicate
group, then one singleton cluster (confidence `1.0`) per unclustered
entity, in input order. -/
noncomputable def clusterEntities (ents : List Entity) (thr : ℝ) :
    List EntityCluster :=
  (identifyDuplicateEntities ents thr).map (fun g =>
    { cluster_id := "uuid"
      entities := g.map (entAt ents)
      representative_entity := selectRepresentativeEntity (g.map (entAt ents))
      confidence := calculateClusterConfidenceE (g.map (entAt ents))
      fusion_method := "similarity_based" }) ++
  (((List.range ents.length).filter
      (fun i => decide (i ∉ (identifyDuplicateEntities ents thr).flatten))).map
    (fun i =>
      { cluster_id := "uuid"
        entities := [entAt ents i]
        representative_entity := some (entAt ents i)
        confidence := 1
        fusion_method := "single_entity" }))

/-- `batch_fuse_entities`: fuse every cluster. -/
noncomputable def batchFuseEntities (ents : List Entity) (thr : ℝ) :
    List FusionResult :=
  (clusterEntities ents thr).map fuseEntityCluster

/-! ## RelationFusion (`kg_core/knowledge_fusion/relation_fusion.py`)

The relation-level similarity never calls the string-similarity stack
(type and endpoint comparisons are exact, context similarity is a
keyword Jaccard over the `cut` tokenizer oracle), so this engine is
exact rational arithmetic and fully executable. -/

/-- `RelationCluster` dataclass. -/
structure RelationCluster where
  cluster_id : String
  relations : List Relation
  representative_relation : Option Relation
  confidence : ℚ
  fusion_method : String
deriving DecidableEq

/-- `RelationFusionResult` dataclass (evidence dict modelled by its
`method` / `source_count` / `cluster_confidence` entries). -/
structure RelationFusionResult where
  fused_relation : Relation
  source_relations : List Relation
  confidence : ℚ
  method : String
  source_count : Option ℕ
  cluster_confidence : Option ℚ
deriving DecidableEq

/-- Weights of `fusion_rules["relation_matching"]`: type 0.6,
entity pair 0.8, context 0.4 (total 1.8). -/
def relTypeWeight : ℚ := 6/10

/-- Entity-pair weight. -/
def relEntityWeight : ℚ := 8/10

/-- Context weight. -/
def relContextWeight : ℚ := 4/10

/-- `_calculate_relation_similarity`: weighted average of type equality,
entity-pair match (1.0 same direction, 0.8 swapped) and context-keyword
similarity (only when both relations carry a string `context`
property). -/
def relationSimilarity (cut : String → List String) (r1 r2 : Relation) : ℚ :=
  ((if r1.type = r2.type then (1 : ℚ) else 0) * relTypeWeight +
   (if r1.head_entity_id = r2.head_entity_id ∧
       r1.tail_entity_id = r2.tail_entity_id then (1 : ℚ)
    else if r1.head_entity_id = r2.tail_entity_id ∧
       r1.tail_entity_id = r2.head_entity_id then 8/10
    else 0) * relEntityWeight +
   (match alGet r1.properties "context", alGet r2.properties "context" with
    | some (.pstr c1), some (.pstr c2) => contextSimilarity cut c1 c2
    | _, _ => 0) * relContextWeight) /
  (relTypeWeight + relEntityWeight + relContextWeight)

/-- `_are_duplicate_relations`: exact (type, head, tail) match, else
similarity at or above the threshold. -/
def areDuplicateRelations (cut : String → List String) (thr : ℚ)
    (r1 r2 : Relation) : Bool :=
  (r1.type = r2.type ∧ r1.head_entity_id = r2.head_entity_id ∧
    r1.tail_entity_id = r2.tail_entity_id) ∨
  thr ≤ relationSimilarity cut r1 r2

/-- Indexing into the relation list (indices come from `range(n)`). -/
def relAt (l : List Relation) (i : ℕ) : Relation :=
  l.getD i ⟨"", "", "", "", [], 1⟩

/-- One iteration of the outer loop of `identify_duplicate_relations`
(same seed-based scan as the entity engine). -/
def dupStepR (cut : String → List String) (rels : List Relation) (thr : ℚ)
    (st : List (List ℕ) × List ℕ) (i : ℕ) : List (List ℕ) × List ℕ :=
  if i ∈ st.2 then st
  else
    let js := (List.range rels.length).filter (fun j =>
      decide (i < j) && decide (j ∉ st.2) &&
      areDuplicateRelations cut thr (relAt rels i) (relAt rels j))
    ((if 1 < (i :: js).length then st.1 ++ [i :: js] else st.1),
      st.2 ++ js ++ [i])

/-- `identify_duplicate_relations`. -/
def identifyDuplicateRelations (cut : String → List String)
    (rels : List Relation) (thr : ℚ) : List (List ℕ) :=
  if rels.length ≤ 1 then []
  else ((List.range rels.length).foldl (dupStepR cut rels thr) ([], [])).1

/-- Pairwise relation similarities of a cluster (upper triangle). -/
def relationPairSimilarities (cut : String → List String)
    (l : List Relation) : List ℚ :=
  ((List.range l.length).map (fun i =>
    ((List.range l.length).filter (fun j => decide (i < j))).map (fun j =>
      relationSimilarity cut (relAt l i) (relAt l j)))).flatten

/-- `RelationFusion._calculate_cluster_confidence`: a singleton keeps
its own confidence; otherwise `0.6·(average pairwise similarity) +
0.4·(average declared confidence)`. -/
def calculateClusterConfidenceR (cut : String → List String)
    (l : List Relation) : ℚ :=
  if l.length = 1 then (relAt l 0).confidence
  else
    (if 0 < (relationPairSimilarities cut l).length then
      (relationPairSimilarities cut l).sum /
        ((relationPairSimilarities cut l).length : ℚ)
     else 0) * (6/10) +
    ((l.map (·.confidence)).sum / (l.length : ℚ)) * (4/10)

/-- `_select_representative_relation` scoring: `0.5·confidence +
0.1·#properties (if any) + 0.3·float(properties["source_quality"])
(if present) + 0.1 (if a timestamp is present)`. -/
def relationRepScore (r : Relation) : ℚ :=
  r.confidence * (5/10) +
  (if r.properties ≠ [] then (r.properties.length : ℚ) * (1/10) else 0) +
  (if r.properties ≠ [] ∧ alHas r.properties "source_quality" then
    pvFloat ((alGet r.properties "source_quality").getD (.pnum 0)) * (3/10)
   else 0) +
  (if r.properties ≠ [] ∧ alHas r.properties "timestamp" then 1/10 else 0)

/-- `_select_representative_relation`: single member, else the first
highest-scoring member. -/
def selectRepresentativeRelation (l : List Relation) : Option Relation :=
  match l with
  | [r] => some r
  | _ => pyMax relationRepScore l

/-- The configured `confidence_fusion.strategy`. -/
def relationConfidenceStrategy : String := "weighted_average"

/-- The configured `property_fusion.merge_strategy`. -/
def relationPropertyStrategy : String := "union"

/-- Python `max(confidences)` (`0` models the `ValueError` on an empty
sequence, never reached from a cluster). -/
def pyListMax (l : List ℚ) : ℚ :=
  match l with
  | [] => 0
  | x :: xs => xs.foldl max x

/-- `RelationFusion._calculate_fusion_confidence`: `max`, `average`, or
the default `weighted_average` = `min(1, avg·(1 + min(1, n/5)·0.2))`;
unknown strategies average. -/
def calculateFusionConfidenceR (strategy : String) (rels : List Relation) : ℚ :=
  if strategy = "max" then pyListMax (rels.map (·.confidence))
  else if strategy = "average" then
    (rels.map (·.confidence)).sum / (rels.length : ℚ)
  else if strategy = "weighted_average" then
    min 1 (((rels.map (·.confidence)).sum / (rels.length : ℚ)) *
      (1 + min 1 ((rels.length : ℚ) / 5) * (2/10)))
  else (rels.map (·.confidence)).sum / (rels.length : ℚ)

/-- `_merge_property_values_union`: lists → de-duplicated concatenation,
strings → longest, otherwise most frequent stringified value. -/
def mergeValuesUnion (values : List PropValue) : PropValue :=
  match values with
  | [v] => v
  | _ =>
      if values.all isListPV then
        .plist (pyDedup ((values.map (fun v =>
          match v with | .plist l => l | _ => [])).flatten))
      else if values.all isStrPV then
        (pyMax (fun v => match v with | .pstr s => s.length | _ => 0) values).getD .pnone
      else pyMostCommonValue values

/-- `_merge_property_values_intersection`: lists → set intersection (in
first-list order), otherwise the common value if all values agree
stringwise, else `None`. -/
def mergeValuesIntersection (values : List PropValue) : PropValue :=
  match values with
  | [v] => v
  | _ =>
      if values.all isListPV then
        .plist ((pyDedup ((values.headD .pnone |> fun v =>
          match v with | .plist l => l | _ => []))).filter (fun x =>
            values.all (fun v =>
              match v with | .plist l => decide (x ∈ l) | _ => true)))
      else if (pyDedup (values.map pvStr)).length = 1 then
        values.headD .pnone
      else .pnone

/-- `_merge_property_values_vote`. -/
def mergeValuesVote (values : List PropValue) : PropValue :=
  pyMostCommonValue values

/-- `_fuse_relation_properties`: per-key merge under the selected
strategy over the union of all keys (first-occurrence order); an
unknown strategy keeps the first value. -/
def fuseRelationProperties (strategy : String)
    (propLists : List (List (String × PropValue))) :
    List (String × PropValue) :=
  if propLists = [] then []
  else
    (pyDedup ((propLists.map alKeys).flatten)).foldl (fun acc k =>
      match propLists.filterMap (fun props =>
        if props ≠ [] then alGet props k else none) with
      | [] => acc
      | values =>
          if strategy = "union" then alPut acc k (mergeValuesUnion values)
          else if strategy = "intersection" then
            alPut acc k (mergeValuesIntersection values)
          else if strategy = "vote" then alPut acc k (mergeValuesVote values)
          else alPut acc k (values.headD .pnone)) []

/-- `_create_fused_relation`: representative's type and endpoints, fused
confidence and properties plus the `fusion_info` provenance dict; fresh
`uuid4` ids are the opaque `"uuid"`. -/
def createFusedRelation (rels : List Relation) : Relation :=
  { id := "uuid"
    type := ((selectRepresentativeRelation rels).getD (relAt rels 0)).type
    head_entity_id :=
      ((selectRepresentativeRelation rels).getD (relAt rels 0)).head_entity_id
    tail_entity_id :=
      ((selectRepresentativeRelation rels).getD (relAt rels 0)).tail_entity_id
    properties := alPut
      (fuseRelationProperties relationPropertyStrategy
        ((rels.map (·.properties)).filter (· ≠ [])))
      "fusion_info"
      (.pdict [("source_count", .pnum (rels.length : ℚ)),
               ("source_ids", .plist (rels.map (fun r => .pstr r.id))),
               ("fusion_timestamp", .pstr "uuid")])
    confidence := calculateFusionConfidenceR relationConfidenceStrategy rels }

/-- `fuse_relation_cluster`: a singleton cluster returns its member
unchanged with the cluster's stored confidence; a real cluster is
merged with the strategy-fused confidence. -/
def fuseRelationCluster (cluster : RelationCluster) : RelationFusionResult :=
  if cluster.relations.length = 1 then
    { fused_relation := cluster.relations.headD ⟨"", "", "", "", [], 1⟩
      source_relations := cluster.relations
      confidence := cluster.confidence
      method := "no_fusion_needed"
      source_count := none
      cluster_confidence := none }
  else
    { fused_relation := createFusedRelation cluster.relations
      source_relations := cluster.relations
      confidence := calculateFusionConfidenceR relationConfidenceStrategy
        cluster.relations
      method := "multi_relation_fusion"
      source_count := some cluster.relations.length
      cluster_confidence := some cluster.confidence }

/-- `cluster_relations`: clusters for duplicate groups, then singleton
clusters with confidence `1.0` for the unclustered rest. -/
def clusterRelations (cut : String → List String) (rels : List Relation)
    (thr : ℚ) : List RelationCluster :=
  (identifyDuplicateRelations cut rels thr).map (fun g =>
    { cluster_id := "uuid"
      relations := g.map (relAt rels)
      representative_relation := selectRepresentativeRelation (g.map (relAt rels))
      confidence := calculateClusterConfidenceR cut (g.map (relAt rels))
      fusion_method := "similarity_based" }) ++
  (((List.range rels.length).filter
      (fun i => decide (i ∉ (identifyDuplicateRelations cut rels thr).flatten))).map
    (fun i =>
      { cluster_id := "uuid"
        relations := [relAt rels i]
        representative_relation := some (relAt rels i)
        confidence := 1
        fusion_method := "single_relation" }))

/-- `batch_fuse_relations`. -/
def batchFuseRelations (cut : String → List String) (rels : List Relation)
    (thr : ℚ) : List RelationFusionResult :=
  (clusterRelations cut rels thr).map fuseRelationCluster

/-- Trivial tokenizer oracle (no relation in the scenarios carries a
`context` property, so the tokenizer is never consulted). -/
def noCut : String → List String := fun _ => []

/-- Scenario B input: two relations with identical type, head and tail
and confidences 0.90 / 0.95. -/
def c3Rels : List Relation :=
  [⟨"r1", "founder_of", "h", "t", [], 9/10⟩,
   ⟨"r2", "founder_of", "h", "t", [], 95/100⟩]

/-- C3 counterexample: the fused weighted-average confidence of Scenario
B is exactly 0.999, which is not approximately 0.963 (it differs by
0.036). -/
theorem scenarioB_confidence_is_not_0963 :
    (batchFuseRelations noCut c3Rels (8/10)).map (·.confidence) = [999/1000] ∧
    ¬ |(999/1000 : ℚ) - 963/1000| < 1/100 := by
  constructor
  · norm_num [batchFuseRelations, clusterRelations, identifyDuplicateRelations,
      dupStepR, areDuplicateRelations, relationSimilarity, relAt, c3Rels,
      List.range_succ, alGet, fuseRelationCluster, calculateFusionConfidenceR,
      relationConfidenceStrategy, calculateClusterConfidenceR,
      relationPairSimilarities, selectRepresentativeRelation, relTypeWeight,
      relEntityWeight, relContextWeight]
    rw [if_neg (by decide), if_neg (by decide)]
  · rw [abs_of_pos (by norm_num)]
    norm_num

/-- C3 (amended): Scenario B yields exactly one cluster, and the fused
relation's confidence under the default `weighted_average` strategy is
`avg(0.90, 0.95) × (1 + min(1, 2/5)·0.2)` capped at 1.0, which equals
0.999 exactly. -/
theorem scenarioB_one_cluster_confidence_0999 :
    (identifyDuplicateRelations noCut c3Rels (8/10)) = [[0, 1]] ∧
    (clusterRelations noCut c3Rels (8/10)).length = 1 ∧
    (batchFuseRelations noCut c3Rels (8/10)).map (·.confidence) =
      [min 1 ((((9:ℚ)/10 + 95/100)/2) * (1 + min 1 ((2:ℚ)/5) * (2/10)))] ∧
    min (1:ℚ) ((((9:ℚ)/10 + 95/100)/2) * (1 + min 1 ((2:ℚ)/5) * (2/10)))
      = 999/1000 := by
  refine ⟨?_, ?_, ?_, by norm_num⟩
  · norm_num [identifyDuplicateRelations, dupStepR, areDuplicateRelations,
      relationSimilarity, relAt, c3Rels, List.range_succ, alGet]
  · norm_num [clusterRelations, identifyDuplicateRelations, dupStepR,
      areDuplicateRelations, relationSimilarity, relAt, c3Rels,
      List.range_succ, alGet]
  · norm_num [batchFuseRelations, clusterRelations, identifyDuplicateRelations,
      dupStepR, areDuplicateRelations, relationSimilarity, relAt, c3Rels,
      List.range_succ, alGet, fuseRelationCluster, calculateFusionConfidenceR,
      relationConfidenceStrategy, calculateClusterConfidenceR,
      relationPairSimilarities, selectRepresentativeRelation, relTypeWeight,
      relEntityWeight, relContextWeight]
    rw [if_neg (by decide), if_neg (by decide)]

theorem foldl_dupStepR_groups (cut : String → List String)
    (rels : List Relation) (thr : ℚ) :
    ∀ (l : List ℕ) (st : List (List ℕ) × List ℕ) (g : List ℕ),
    g ∈ (l.foldl (dupStepR cut rels thr) st).1 → g ∈ st.1 ∨ 1 < g.length := by
  intro l
  induction l with
  | nil => intro st g h; exact Or.inl h
  | cons i rest ih =>
      intro st g h
      rw [List.foldl_cons] at h
      rcases ih _ g h with h' | h'
      · simp only [dupStepR] at h'
        split at h'
        · exact Or.inl h'
        · dsimp only at h'
          split at h'
          · rename_i hlen
            rcases List.mem_append.mp h' with h2 | h2
            · exact Or.inl h2
            · have hg := List.mem_singleton.mp h2
              subst hg
              exact Or.inr hlen
          · exact Or.inl h'
      · exact Or.inr h'

theorem identifyDuplicateRelations_groups_length (cut : String → List String)
    (rels : List Relation) (thr : ℚ) (g : List ℕ)
    (hg : g ∈ identifyDuplicateRelations cut rels thr) : 1 < g.length := by
  unfold identifyDuplicateRelations at hg
  split at hg
  · cases hg
  · rcases foldl_dupStepR_groups cut rels thr _ _ g hg with h | h
    · cases h
    · exact h

/-- C4 counterexample: `fuse_relation_cluster` on a one-element cluster
returns the cluster's stored confidence (here the dataclass default
`0.0`), not `1.0`. -/
theorem fuse_relation_singleton_keeps_stored_confidence :
    (fuseRelationCluster
      ⟨"c1", [⟨"r", "knows", "a", "b", [], 1⟩], none, 0,
        "similarity_based"⟩).confidence = 0 ∧ (0 : ℚ) ≠ 1 := by
  constructor
  · rfl
  · decide

/-- C4 (amended): fusing a one-element cluster returns the single member
unchanged; `fuse_entity_cluster` sets confidence `1.0`, while
`fuse_relation_cluster` keeps the cluster's stored confidence — which is
`1.0` for every singleton cluster produced by `cluster_relations` (and
hence in batch fusion). -/
theorem singleton_fusion_identity :
    (∀ (cid : String) (rep : Option Entity) (conf : ℝ) (fm : String)
      (e : Entity),
      fuseEntityCluster ⟨cid, [e], rep, conf, fm⟩ =
        ⟨e, [e], 1, ⟨"no_fusion_needed", none, none⟩⟩) ∧
    (∀ (cid : String) (rep : Option Relation) (conf : ℚ) (fm : String)
      (r : Relation),
      fuseRelationCluster ⟨cid, [r], rep, conf, fm⟩ =
        ⟨r, [r], conf, "no_fusion_needed", none, none⟩) ∧
    (∀ (cut : String → List String) (rels : List Relation) (thr : ℚ),
      ∀ c ∈ clusterRelations cut rels thr, c.relations.length = 1 →
        c.confidence = 1) := by
  refine ⟨?_, ?_, ?_⟩
  · intro cid rep conf fm e
    rfl
  · intro cid rep conf fm r
    rfl
  · intro cut rels thr c hc hlen
    unfold clusterRelations at hc
    rcases List.mem_append.mp hc with h | h
    · obtain ⟨g, hg, rfl⟩ := List.mem_map.mp h
      have h2 := identifyDuplicateRelations_groups_length cut rels thr g hg
      simp only [List.length_map] at hlen
      omega
    · obtain ⟨i, _, rfl⟩ := List.mem_map.mp h
      rfl

/-- Concrete singleton relation for the C4 witness. -/
def c4WitnessRel : Relation := ⟨"r", "knows", "a", "b", [], 1⟩

/-- The singleton cluster produced by `cluster_relations` for it. -/
def c4WitnessCluster : RelationCluster :=
  ⟨"uuid", [c4WitnessRel], some c4WitnessRel, 1, "single_relation"⟩

/-- Witness for the cluster-membership part of the C4 theorem. -/
theorem singleton_fusion_identity_witness :
    c4WitnessCluster ∈ clusterRelations noCut [c4WitnessRel] (8/10) ∧
    c4WitnessCluster.relations.length = 1 ∧
    c4WitnessCluster.confidence = 1 :=
  ⟨by decide, by decide,
   singleton_fusion_identity.2.2 noCut [c4WitnessRel] (8/10)
     c4WitnessCluster (by decide) (by decide)⟩

/-! ### Confidence bounds (claim C8) -/

theorem list_avg_bounds {K : Type} [LinearOrderedField K] (l : List K)
    (h0 : ∀ x ∈ l, 0 ≤ x) (h1 : ∀ x ∈ l, x ≤ 1) :
    0 ≤ l.sum / (l.length : K) ∧ l.sum / (l.length : K) ≤ 1 := by
  rcases Nat.eq_zero_or_pos l.length with hl | hl
  · rw [hl]
    norm_num
  · have hpos : (0 : K) < (l.length : K) := by exact_mod_cast hl
    have hsum0 : 0 ≤ l.sum := List.sum_nonneg h0
    have hsum1 : l.sum ≤ (l.length : K) := by
      have := List.sum_le_card_nsmul l 1 h1
      simpa using this
    exact ⟨div_nonneg hsum0 hpos.le, (div_le_one hpos).mpr hsum1⟩

theorem foldl_max_le {K : Type} [LinearOrder K] (xs : List K) (acc hi : K)
    (ha : acc ≤ hi) (h : ∀ x ∈ xs, x ≤ hi) : xs.foldl max acc ≤ hi := by
  induction xs generalizing acc with
  | nil => exact ha
  | cons x xs ih =>
      rw [List.foldl_cons]
      exact ih (max acc x)
        (max_le ha (h x (List.mem_cons_self x xs)))
        (fun y hy => h y (List.mem_cons_of_mem x hy))

theorem le_foldl_max {K : Type} [LinearOrder K] (xs : List K) (acc : K) :
    acc ≤ xs.foldl max acc := by
  induction xs generalizing acc with
  | nil => exact le_refl acc
  | cons x xs ih =>
      rw [List.foldl_cons]
      exact le_trans (le_max_left acc x) (ih (max acc x))

theorem pyListMax_bounds (l : List ℚ) (hne : l ≠ [])
    (h0 : ∀ x ∈ l, 0 ≤ x) (h1 : ∀ x ∈ l, x ≤ 1) :
    0 ≤ pyListMax l ∧ pyListMax l ≤ 1 := by
  match l, hne with
  | x :: xs, _ =>
      unfold pyListMax
      constructor
      · exact le_trans (h0 x (List.mem_cons_self x xs)) (le_foldl_max xs x)
      · exact foldl_max_le xs x 1 (h1 x (List.mem_cons_self x xs))
          (fun y hy => h1 y (List.mem_cons_of_mem x hy))

theorem relationSimilarity_bounds (cut : String → List String)
    (r1 r2 : Relation) :
    0 ≤ relationSimilarity cut r1 r2 ∧ relationSimilarity cut r1 r2 ≤ 1 := by
  have ht : 0 ≤ (if r1.type = r2.type then (1 : ℚ) else 0) ∧
      (if r1.type = r2.type then (1 : ℚ) else 0) ≤ 1 := by
    split <;> norm_num
  have he : 0 ≤ (if r1.head_entity_id = r2.head_entity_id ∧
        r1.tail_entity_id = r2.tail_entity_id then (1 : ℚ)
      else if r1.head_entity_id = r2.tail_entity_id ∧
        r1.tail_entity_id = r2.head_entity_id then 8/10
      else 0) ∧ (if r1.head_entity_id = r2.head_entity_id ∧
        r1.tail_entity_id = r2.tail_entity_id then (1 : ℚ)
      else if r1.head_entity_id = r2.tail_entity_id ∧
        r1.tail_entity_id = r2.head_entity_id then 8/10
      else 0) ≤ 1 := by
    split
    · norm_num
    · split <;> norm_num
  have hc : 0 ≤ (match alGet r1.properties "context",
        alGet r2.properties "context" with
      | some (.pstr c1), some (.pstr c2) => contextSimilarity cut c1 c2
      | _, _ => 0) ∧ (match alGet r1.properties "context",
        alGet r2.properties "context" with
      | some (.pstr c1), some (.pstr c2) => contextSimilarity cut c1 c2
      | _, _ => 0) ≤ 1 := by
    constructor
    · split
      · exact (contextSimilarity_bounds cut _ _).1
      · norm_num
    · split
      · exact (contextSimilarity_bounds cut _ _).2
      · norm_num
  unfold relationSimilarity relTypeWeight relEntityWeight relContextWeight
  constructor
  · have h1 := ht.1
    have h2 := he.1
    have h3 := hc.1
    positivity
  · rw [div_le_one (by norm_num)]
    nlinarith [ht.1, ht.2, he.1, he.2, hc.1, hc.2]

theorem entityPairSimilarities_mem (l : List Entity) :
    ∀ x ∈ entityPairSimilarities l, 0 ≤ x ∧ x ≤ 1 := by
  intro x hx
  unfold entityPairSimilarities at hx
  rw [List.mem_flatten] at hx
  obtain ⟨li, hli, hx⟩ := hx
  rw [List.mem_map] at hli
  obtain ⟨i, _, rfl⟩ := hli
  rw [List.mem_map] at hx
  obtain ⟨j, _, rfl⟩ := hx
  exact entitySimilarity_bounds _ _

theorem calculateClusterConfidenceE_bounds (l : List Entity) :
    0 ≤ calculateClusterConfidenceE l ∧ calculateClusterConfidenceE l ≤ 1 := by
  unfold calculateClusterConfidenceE
  split
  · norm_num
  · split
    · exact list_avg_bounds (entityPairSimilarities l)
        (fun x hx => (entityPairSimilarities_mem l x hx).1)
        (fun x hx => (entityPairSimilarities_mem l x hx).2)
    · norm_num

theorem calculateFusionConfidenceE_bounds (source : List Entity)
    (fused : Entity) :
    0 ≤ calculateFusionConfidenceE source fused ∧
      calculateFusionConfidenceE source fused ≤ 1 := by
  unfold calculateFusionConfidenceE
  split
  · norm_num
  · have ha : (0 : ℚ) ≤ min 1 ((source.length : ℚ) / 5) := by
      have : (0 : ℚ) ≤ (source.length : ℚ) / 5 := by positivity
      exact le_min (by norm_num) this
    have hb : (0 : ℚ) ≤ (if 0 < (source.map (fun e => e.properties.length)).sum
        then (fused.properties.length : ℚ) /
          (((source.map (fun e => e.properties.length)).sum : ℕ) : ℚ)
        else 1/2) := by
      split
      · positivity
      · norm_num
    have hc : (0 : ℚ) ≤
        ((if (pyDedup (source.map (·.name))).length = 1 then (1 : ℚ) else 0) +
         (if (pyDedup (source.map (·.type))).length = 1 then (1 : ℚ) else 0)) / 2 := by
      have h1 : (0 : ℚ) ≤
          (if (pyDedup (source.map (·.name))).length = 1 then (1 : ℚ) else 0) := by
        split <;> norm_num
      have h2 : (0 : ℚ) ≤
          (if (pyDedup (source.map (·.type))).length = 1 then (1 : ℚ) else 0) := by
        split <;> norm_num
      linarith
    constructor
    · exact le_min (by nlinarith) (by norm_num)
    · exact min_le_right _ _

theorem relationPairSimilarities_mem (cut : String → List String)
    (l : List Relation) :
    ∀ x ∈ relationPairSimilarities cut l, 0 ≤ x ∧ x ≤ 1 := by
  intro x hx
  unfold relationPairSimilarities at hx
  rw [List.mem_flatten] at hx
  obtain ⟨li, hli, hx⟩ := hx
  rw [List.mem_map] at hli
  obtain ⟨i, _, rfl⟩ := hli
  rw [List.mem_map] at hx
  obtain ⟨j, _, rfl⟩ := hx
  exact relationSimilarity_bounds cut _ _

theorem calculateClusterConfidenceR_bounds (cut : String → List String)
    (l : List Relation) (hne : l ≠ [])
    (hconf : ∀ r ∈ l, 0 ≤ r.confidence ∧ r.confidence ≤ 1) :
    0 ≤ calculateClusterConfidenceR cut l ∧
      calculateClusterConfidenceR cut l ≤ 1 := by
  unfold calculateClusterConfidenceR
  split
  · apply hconf
    match l, hne with
    | x :: xs, _ => exact List.mem_cons_self x xs
  · have hsim : 0 ≤ (if 0 < (relationPairSimilarities cut l).length then
        (relationPairSimilarities cut l).sum /
          ((relationPairSimilarities cut l).length : ℚ)
       else 0) ∧ (if 0 < (relationPairSimilarities cut l).length then
        (relationPairSimilarities cut l).sum /
          ((relationPairSimilarities cut l).length : ℚ)
       else 0) ≤ 1 := by
      split
      · exact list_avg_bounds (relationPairSimilarities cut l)
          (fun x hx => (relationPairSimilarities_mem cut l x hx).1)
          (fun x hx => (relationPairSimilarities_mem cut l x hx).2)
      · norm_num
    have hcf : 0 ≤ (l.map (·.confidence)).sum / ((l.length : ℕ) : ℚ) ∧
        (l.map (·.confidence)).sum / ((l.length : ℕ) : ℚ) ≤ 1 := by
      have := list_avg_bounds (l.map (·.confidence))
        (fun x hx => by
          obtain ⟨r, hr, rfl⟩ := List.mem_map.mp hx
          exact (hconf r hr).1)
        (fun x hx => by
          obtain ⟨r, hr, rfl⟩ := List.mem_map.mp hx
          exact (hconf r hr).2)
      rwa [List.length_map] at this
    constructor <;> nlinarith [hsim.1, hsim.2, hcf.1, hcf.2]

theorem calculateFusionConfidenceR_bounds (strategy : String)
    (rels : List Relation) (hne : rels ≠ [])
    (hconf : ∀ r ∈ rels, 0 ≤ r.confidence ∧ r.confidence ≤ 1) :
    0 ≤ calculateFusionConfidenceR strategy rels ∧
      calculateFusionConfidenceR strategy rels ≤ 1 := by
  have havg : 0 ≤ (rels.map (·.confidence)).sum / ((rels.length : ℕ) : ℚ) ∧
      (rels.map (·.confidence)).sum / ((rels.length : ℕ) : ℚ) ≤ 1 := by
    have := list_avg_bounds (rels.map (·.confidence))
      (fun x hx => by
        obtain ⟨r, hr, rfl⟩ := List.mem_map.mp hx
        exact (hconf r hr).1)
      (fun x hx => by
        obtain ⟨r, hr, rfl⟩ := List.mem_map.mp hx
        exact (hconf r hr).2)
    rwa [List.length_map] at this
  unfold calculateFusionConfidenceR
  split
  · apply pyListMax_bounds
    · simp [hne]
    · intro x hx
      obtain ⟨r, hr, rfl⟩ := List.mem_map.mp hx
      exact (hconf r hr).1
    · intro x hx
      obtain ⟨r, hr, rfl⟩ := List.mem_map.mp hx
      exact (hconf r hr).2
  · split
    · exact havg
    · split
      · have hboost : (0 : ℚ) ≤ 1 + min 1 ((rels.length : ℚ) / 5) * (2/10) := by
          have : (0 : ℚ) ≤ min 1 ((rels.length : ℚ) / 5) :=
            le_min (by norm_num) (by positivity)
          linarith
        constructor
        · exact le_min (by norm_num) (mul_nonneg havg.1 hboost)
        · exact min_le_left _ _
      · exact havg

/-- C8: every string-similarity method stays in `[0,1]` for all inputs,
and — for declared confidences in `[0,1]` — so do the entity cluster
confidence, the entity fusion confidence, the relation cluster
confidence and the relation fusion confidence under every strategy. -/
theorem similarity_and_confidence_bounds :
    (∀ (m : SimMethod) (a b : String),
      0 ≤ stringSimilarity a b m ∧ stringSimilarity a b m ≤ 1) ∧
    (∀ l : List Entity,
      0 ≤ calculateClusterConfidenceE l ∧ calculateClusterConfidenceE l ≤ 1) ∧
    (∀ (source : List Entity) (fused : Entity),
      0 ≤ calculateFusionConfidenceE source fused ∧
        calculateFusionConfidenceE source fused ≤ 1) ∧
    (∀ (cut : String → List String) (l : List Relation), l ≠ [] →
      (∀ r ∈ l, 0 ≤ r.confidence ∧ r.confidence ≤ 1) →
      0 ≤ calculateClusterConfidenceR cut l ∧
        calculateClusterConfidenceR cut l ≤ 1) ∧
    (∀ (strategy : String) (rels : List Relation), rels ≠ [] →
      (∀ r ∈ rels, 0 ≤ r.confidence ∧ r.confidence ≤ 1) →
      0 ≤ calculateFusionConfidenceR strategy rels ∧
        calculateFusionConfidenceR strategy rels ≤ 1) :=
  ⟨fun m a b => stringSimilarity_bounds m a b,
   calculateClusterConfidenceE_bounds,
   calculateFusionConfidenceE_bounds,
   calculateClusterConfidenceR_bounds,
   calculateFusionConfidenceR_bounds⟩

/-- Witness for the hypothesis-carrying parts of the C8 theorem at a
concrete one-relation list with confidence 1. -/
theorem similarity_and_confidence_bounds_witness :
    (([c4WitnessRel] : List Relation) ≠ []) ∧
    (∀ r ∈ ([c4WitnessRel] : List Relation),
      0 ≤ r.confidence ∧ r.confidence ≤ 1) ∧
    (0 ≤ calculateClusterConfidenceR noCut [c4WitnessRel] ∧
      calculateClusterConfidenceR noCut [c4WitnessRel] ≤ 1) ∧
    (0 ≤ calculateFusionConfidenceR "max" [c4WitnessRel] ∧
      calculateFusionConfidenceR "max" [c4WitnessRel] ≤ 1) :=
  ⟨by decide, by decide,
   similarity_and_confidence_bounds.2.2.2.1 noCut [c4WitnessRel]
     (by decide) (by decide),
   similarity_and_confidence_bounds.2.2.2.2 "max" [c4WitnessRel]
     (by decide) (by decide)⟩

/-! ## ConflictResolver (`kg_demo/knowledge_fusion/conflict_resolution.py`) -/

/-- `ConflictType` enum. -/
inductive ConflictType where
  | entity_name_conflict
  | entity_type_conflict
  | property_value_conflict
  | relation_type_conflict
  | temporal_conflict
  | contradictory_relations
deriving DecidableEq

/-- A conflicting item (`conflicting_items: List[Any]`): a plain string
(names, types), a property value, or a whole relation. -/
inductive CItem where
  | cstr (s : String)
  | cval (v : PropValue)
  | crel (r : Relation)
deriving DecidableEq

/-- `Conflict` dataclass. -/
structure Conflict where
  conflict_id : String
  conflict_type : ConflictType
  description : String
  conflicting_items : List CItem
  confidence_scores : List ℚ
  resolution_strategy : Option String
  resolved_value : Option CItem
  resolution_confidence : ℚ
deriving DecidableEq

/-- The known contradictory relation-type pairs of
`_are_contradictory_relations`. -/
def contradictoryPairs : List (String × String) :=
  [("parent_of", "child_of"), ("spouse_of", "sibling_of"),
   ("works_for", "competes_with"), ("located_in", "not_located_in")]

/-- `_are_contradictory_relations`: the type set contains both members
of some known contradictory pair. -/
def areContradictoryRelations (relationTypes : List String) : Bool :=
  contradictoryPairs.any (fun p =>
    p.1 ∈ relationTypes ∧ p.2 ∈ relationTypes)

/-- The conflict emitted by `detect_relation_conflicts` for one
qualifying (head, tail) group. -/
def relationConflictFor (relations : List Relation) (key : String × String) :
    Conflict :=
  if areContradictoryRelations
      (((relations.filter (fun r => r.head_entity_id = key.1 ∧
          r.tail_entity_id = key.2)).map (·.type))) then
    { conflict_id := "contradictory_relations_" ++ key.1 ++ "_" ++ key.2
      conflict_type := .contradictory_relations
      description := "实体 " ++ key.1 ++ " 和 " ++ key.2 ++ " 之间存在矛盾关系"
      conflicting_items := (relations.filter (fun r =>
        r.head_entity_id = key.1 ∧ r.tail_entity_id = key.2)).map
          (fun r => .crel r)
      confidence_scores := (relations.filter (fun r =>
        r.head_entity_id = key.1 ∧ r.tail_entity_id = key.2)).map (·.confidence)
      resolution_strategy := none
      resolved_value := none
      resolution_confidence := 0 }
  else
    { conflict_id := "relation_type_conflict_" ++ key.1 ++ "_" ++ key.2
      conflict_type := .relation_type_conflict
      description := "实体 " ++ key.1 ++ " 和 " ++ key.2 ++ " 之间有多种关系类型"
      conflicting_items := ((relations.filter (fun r =>
        r.head_entity_id = key.1 ∧ r.tail_entity_id = key.2)).map (·.type)).map
          (fun t => .cstr t)
      confidence_scores := (relations.filter (fun r =>
        r.head_entity_id = key.1 ∧ r.tail_entity_id = key.2)).map (·.confidence)
      resolution_strategy := none
      resolved_value := none
      resolution_confidence := 0 }

/-- `detect_relation_conflicts`: group by (head, tail) pair (key
insertion order), skip groups of one relation, and emit one conflict per
group with two or more distinct types. -/
def detectRelationConflicts (relations : List Relation) : List Conflict :=
  (pyDedup (relations.map (fun r =>
    (r.head_entity_id, r.tail_entity_id)))).foldl (fun acc key =>
      if (relations.filter (fun r => r.head_entity_id = key.1 ∧
          r.tail_entity_id = key.2)).length ≤ 1 then acc
      else if 1 < (pyDedup ((relations.filter (fun r =>
          r.head_entity_id = key.1 ∧ r.tail_entity_id = key.2)).map
            (·.type))).length then
        acc ++ [relationConflictFor relations key]
      else acc) []

/-- Python `len(item)`: defined for strings, lists and dicts, a
`TypeError` (modelled as `none`) otherwise. -/
def cItemLen : CItem → Option ℕ
  | .cstr s => some s.length
  | .cval (.pstr s) => some s.length
  | .cval (.plist l) => some l.length
  | .cval (.pdict d) => some d.length
  | _ => none

/-- Python `str(item)` for Counter grouping: strings are themselves,
property values stringify structurally, and a relation's dataclass repr
is modelled by a field-wise rendering. -/
def cItemStr : CItem → String
  | .cstr s => s
  | .cval v => pvStr v
  | .crel r =>
      "Relation(id='" ++ r.id ++ "', type='" ++ r.type ++
      "', head_entity_id='" ++ r.head_entity_id ++
      "', tail_entity_id='" ++ r.tail_entity_id ++
      "', properties=" ++ pvStr (.pdict r.properties) ++
      ", confidence=" ++ toString r.confidence ++ ")"

/-- Python `float(s)` on a string, modelled for plain digit strings
(the only shape the repository ever feeds it). -/
def pyFloatOfString (s : String) : Option ℚ :=
  if s ≠ "" ∧ s.toList.all Char.isDigit then
    some ((s.toList.foldl (fun n c => n * 10 + (c.toNat - 48)) 0 : ℕ) : ℚ)
  else none

/-- Python `float(item)`: numbers and booleans convert, numeric strings
parse, everything else raises (modelled as `none`). -/
def cItemFloat : CItem → Option ℚ
  | .cstr s => pyFloatOfString s
  | .cval (.pnum q) => some q
  | .cval (.pbool b) => some (if b then 1 else 0)
  | .cval (.pstr s) => pyFloatOfString s
  | _ => none

/-- The `highest_confidence` selection shared by the `_resolve_*`
methods: `max_idx = confidences.index(max(confidences))`, pick
`items[max_idx]` (raising on an empty confidence list or an out-of-range
index). -/
def highestConfidencePick (items : List CItem) (confs : List ℚ) :
    Except String (CItem × ℚ) :=
  match confs with
  | [] => .error "ValueError"
  | _ :: _ =>
      match items.get? ((confs.findIdx? (fun q => q = pyListMax confs)).getD
        confs.length) with
      | some v => .ok (v, pyListMax confs)
      | none => .error "IndexError"

/-- `Counter(l).most_common(1)[0]`: the most frequent element (first
occurrence breaks ties) with its count; `IndexError` on empty input. -/
def mostCommonPick {α : Type} [DecidableEq α] (l : List α) :
    Except String (α × ℕ) :=
  match pyMax (fun x => l.count x) (pyDedup l) with
  | some x => .ok (x, l.count x)
  | none => .error "IndexError"

/-- `max(items, key=len)` (raising on empty input or unsized items). -/
def longestItem (items : List CItem) : Except String CItem :=
  if items = [] then .error "ValueError"
  else if items.all (fun it => (cItemLen it).isSome) then
    .ok ((pyMax (fun it => (cItemLen it).getD 0) items).getD (.cstr ""))
  else .error "TypeError"

/-- `_resolve_name_conflict`. -/
def resolveNameConflict (c : Conflict) (strategy : String) :
    Except String Conflict :=
  if strategy = "highest_confidence" then
    match highestConfidencePick c.conflicting_items c.confidence_scores with
    | .ok (v, m) => .ok { c with resolved_value := some v,
                                   resolution_confidence := m }
    | .error e => .error e
  else if strategy = "most_frequent" then
    match mostCommonPick c.conflicting_items with
    | .ok (v, n) => .ok { c with resolved_value := some v,
                                   resolution_confidence :=
                                     (n : ℚ) / (c.conflicting_items.length : ℚ) }
    | .error e => .error e
  else if strategy = "longest_name" then
    match longestItem c.conflicting_items with
    | .ok v => .ok { c with resolved_value := some v,
                                 resolution_confidence := 7/10 }
    | .error e => .error e
  else
    match c.conflicting_items.head? with
    | some v => .ok { c with resolved_value := some v,
                                 resolution_confidence := 5/10 }
    | none => .error "IndexError"

/-- `_resolve_type_conflict`. -/
def resolveTypeConflict (c : Conflict) (strategy : String) :
    Except String Conflict :=
  if strategy = "highest_confidence" then
    match highestConfidencePick c.conflicting_items c.confidence_scores with
    | .ok (v, m) => .ok { c with resolved_value := some v,
                                   resolution_confidence := m }
    | .error e => .error e
  else if strategy = "most_specific_type" then
    match longestItem c.conflicting_items with
    | .ok v => .ok { c with resolved_value := some v,
                                 resolution_confidence := 8/10 }
    | .error e => .error e
  else if strategy = "vote" then
    match mostCommonPick c.conflicting_items with
    | .ok (v, n) => .ok { c with resolved_value := some v,
                                   resolution_confidence :=
                                     (n : ℚ) / (c.conflicting_items.length : ℚ) }
    | .error e => .error e
  else
    match c.conflicting_items.head? with
    | some v => .ok { c with resolved_value := some v,
                                 resolution_confidence := 5/10 }
    | none => .error "IndexError"

/-- The `vote` branch of `_resolve_property_conflict` (also the fallback
of `average_numeric` and `union_lists`): most frequent stringified
value, mapped back to the first original value with that string. -/
def votePropertyPick (c : Conflict) : Except String Conflict :=
  match mostCommonPick (c.conflicting_items.map cItemStr) with
  | .ok (mcStr, n) => .ok { c with
      resolved_value := c.conflicting_items.find? (fun v => cItemStr v = mcStr)
      resolution_confidence := (n : ℚ) / (c.conflicting_items.length : ℚ) }
  | .error e => .error e

/-- `_resolve_property_conflict`. -/
def resolvePropertyConflict (c : Conflict) (strategy : String) :
    Except String Conflict :=
  if strategy = "highest_confidence" then
    match highestConfidencePick c.conflicting_items c.confidence_scores with
    | .ok (v, m) => .ok { c with resolved_value := some v,
                                   resolution_confidence := m }
    | .error e => .error e
  else if strategy = "vote" then votePropertyPick c
  else if strategy = "average_numeric" then
    if c.conflicting_items = [] then .error "ZeroDivisionError"
    else if c.conflicting_items.all (fun v => (cItemFloat v).isSome) then
      .ok { c with
        resolved_value := some (.cval (.pnum
          ((c.conflicting_items.map (fun v => (cItemFloat v).getD 0)).sum /
            (c.conflicting_items.length : ℚ))))
        resolution_confidence := 8/10 }
    else votePropertyPick c
  else if strategy = "union_lists" then
    if c.conflicting_items.all (fun v =>
        match v with | .cval (.plist _) => true | _ => false) then
      .ok { c with
        resolved_value := some (.cval (.plist (pyDedup
          ((c.conflicting_items.map (fun v =>
            match v with | .cval (.plist l) => l | _ => [])).flatten))))
        resolution_confidence := 9/10 }
    else votePropertyPick c
  else
    match c.conflicting_items.head? with
    | some v => .ok { c with resolved_value := some v,
                                 resolution_confidence := 5/10 }
    | none => .error "IndexError"

/-- `_resolve_relation_type_conflict`. -/
def resolveRelationTypeConflict (c : Conflict) (strategy : String) :
    Except String Conflict :=
  if strategy = "highest_confidence" then
    match highestConfidencePick c.conflicting_items c.confidence_scores with
    | .ok (v, m) => .ok { c with resolved_value := some v,
                                   resolution_confidence := m }
    | .error e => .error e
  else if strategy = "most_frequent" then
    match mostCommonPick c.conflicting_items with
    | .ok (v, n) => .ok { c with resolved_value := some v,
                                   resolution_confidence :=
                                     (n : ℚ) / (c.conflicting_items.length : ℚ) }
    | .error e => .error e
  else
    match c.conflicting_items.head? with
    | some v => .ok { c with resolved_value := some v,
                                 resolution_confidence := 5/10 }
    | none => .error "IndexError"

/-- `_resolve_contradictory_relations`. -/
def resolveContradictoryRelations (c : Conflict) (strategy : String) :
    Except String Conflict :=
  if strategy = "highest_confidence" then
    match highestConfidencePick c.conflicting_items c.confidence_scores with
    | .ok (v, m) => .ok { c with resolved_value := some v,
                                   resolution_confidence := m }
    | .error e => .error e
  else if strategy = "source_authority" then
    match c.conflicting_items.head? with
    | some v => .ok { c with resolved_value := some v,
                                 resolution_confidence := 6/10 }
    | none => .error "IndexError"
  else
    match c.conflicting_items.head? with
    | some v => .ok { c with resolved_value := some v,
                                 resolution_confidence := 5/10 }
    | none => .error "IndexError"

/-- `_resolve_by_highest_confidence` (default path for conflict types
with no dedicated resolver, e.g. temporal): empty confidence list picks
`items[0] if items else None` with confidence 0.5 and never raises. -/
def resolveByHighestConfidence (c : Conflict) : Except String Conflict :=
  if c.confidence_scores = [] then
    .ok { c with resolved_value := c.conflicting_items.head?,
                 resolution_confidence := 5/10 }
  else
    match highestConfidencePick c.conflicting_items c.confidence_scores with
    | .ok (v, m) => .ok { c with resolved_value := some v,
                                   resolution_confidence := m }
    | .error e => .error e

/-- The first (default) strategy of each conflict type's
`resolution_strategies` list. -/
def defaultStrategy : ConflictType → String
  | .entity_name_conflict => "highest_confidence"
  | .entity_type_conflict => "most_specific_type"
  | .property_value_conflict => "highest_confidence"
  | .relation_type_conflict => "highest_confidence"
  | .temporal_conflict => "most_recent"
  | .contradictory_relations => "highest_confidence"

/-- The strategy dispatch inside the `try` block of `resolve_conflict`. -/
def innerResolve (c : Conflict) (strategy : String) : Except String Conflict :=
  match c.conflict_type with
  | .entity_name_conflict => resolveNameConflict c strategy
  | .entity_type_conflict => resolveTypeConflict c strategy
  | .property_value_conflict => resolvePropertyConflict c strategy
  | .relation_type_conflict => resolveRelationTypeConflict c strategy
  | .contradictory_relations => resolveContradictoryRelations c strategy
  | .temporal_conflict => resolveByHighestConfidence c

/-- `resolve_conflict`: pick the default strategy when none is given,
record it on the conflict, run the resolver inside `try`; on success
append to the history, on any exception fall back to the first
conflicting item with resolution confidence 0.1 — the fallback itself
raises `IndexError` when there are no conflicting items.  Returns the
(possibly unchanged) history together with the outcome. -/
def resolveConflict (history : List Conflict) (c : Conflict)
    (strategyOpt : Option String) : List Conflict × Except String Conflict :=
  let strat := strategyOpt.getD (defaultStrategy c.conflict_type)
  let c0 := { c with resolution_strategy := some strat }
  match innerResolve c0 strat with
  | .ok c' => (history ++ [c'], .ok c')
  | .error _ =>
      match c0.conflicting_items.head? with
      | some v => (history, .ok { c0 with resolved_value := some v,
                                          resolution_confidence := 1/10 })
      | none => (history, .error "IndexError")

/-- `batch_resolve_conflicts`: resolve in order with the per-type
strategy override; an uncaught exception from one conflict aborts the
whole batch. -/
def batchResolveConflicts (history : List Conflict)
    (mapping : List (ConflictType × String)) :
    List Conflict → Except String (List Conflict × List Conflict)
  | [] => .ok (history, [])
  | c :: rest =>
      match resolveConflict history c
        ((mapping.find? (fun p => p.1 = c.conflict_type)).map (·.2)) with
      | (h', .ok c') =>
          match batchResolveConflicts h' mapping rest with
          | .ok (h'', res) => .ok (h'', c' :: res)
          | .error e => .error e
      | (_, .error e) => .error e

theorem pyDedup_foldl_length {α : Type} [DecidableEq α] :
    ∀ (l : List α) (acc : List α),
    (l.foldl (fun acc x => if x ∈ acc then acc else acc ++ [x]) acc).length ≤
      acc.length + l.length := by
  intro l
  induction l with
  | nil => intro acc; simp
  | cons x rest ih =>
      intro acc
      rw [List.foldl_cons]
      by_cases h : x ∈ acc
      · rw [if_pos h]
        calc _ ≤ acc.length + rest.length := ih acc
          _ ≤ acc.length + (x :: rest).length := by
              simp only [List.length_cons]
              omega
      · rw [if_neg h]
        calc _ ≤ (acc ++ [x]).length + rest.length := ih (acc ++ [x])
          _ = acc.length + (x :: rest).length := by
              simp only [List.length_append, List.length_cons,
                List.length_nil]
              omega

theorem pyDedup_length_le {α : Type} [DecidableEq α] (l : List α) :
    (pyDedup l).length ≤ l.length := by
  have := pyDedup_foldl_length l []
  simpa [pyDedup] using this

theorem foldl_guard_append {α β : Type} (p1 p2 : α → Prop)
    [DecidablePred p1] [DecidablePred p2] (f : α → β) :
    ∀ (keys : List α) (acc : List β),
    keys.foldl (fun acc k =>
      if p1 k then acc else if p2 k then acc ++ [f k] else acc) acc
      = acc ++ (keys.filter (fun k => decide (¬ p1 k ∧ p2 k))).map f := by
  intro keys
  induction keys with
  | nil => intro acc; simp
  | cons k rest ih =>
      intro acc
      rw [List.foldl_cons]
      by_cases h1 : p1 k
      · rw [if_pos h1, ih]
        simp [h1]
      · rw [if_neg h1]
        by_cases h2 : p2 k
        · rw [if_pos h2, ih]
          simp [h1, h2]
        · rw [if_neg h2, ih]
          simp [h1, h2]

/-- C6: `detect_relation_conflicts` emits exactly one conflict per
(head, tail) group carrying at least two distinct relation types — in
group order — and no conflict for groups with one relation or a single
distinct type; the emitted conflict is `CONTRADICTORY_RELATIONS`
precisely when the group's types contain a known contradictory pair and
`RELATION_TYPE_CONFLICT` otherwise. -/
theorem detect_relation_conflicts_one_per_qualifying_group
    (relations : List Relation) :
    detectRelationConflicts relations =
      ((pyDedup (relations.map (fun r =>
        (r.head_entity_id, r.tail_entity_id)))).filter (fun key =>
          decide (1 < (pyDedup ((relations.filter (fun r =>
            r.head_entity_id = key.1 ∧ r.tail_entity_id = key.2)).map
              (·.type))).length))).map (relationConflictFor relations) ∧
    (∀ key : String × String,
      (relationConflictFor relations key).conflict_type =
        (if areContradictoryRelations ((relations.filter (fun r =>
            r.head_entity_id = key.1 ∧ r.tail_entity_id = key.2)).map
              (·.type)) = true
         then ConflictType.contradictory_relations
         else ConflictType.relation_type_conflict)) := by
  constructor
  · unfold detectRelationConflicts
    rw [foldl_guard_append
      (fun key => (relations.filter (fun r => r.head_entity_id = key.1 ∧
        r.tail_entity_id = key.2)).length ≤ 1)
      (fun key => 1 < (pyDedup ((relations.filter (fun r =>
        r.head_entity_id = key.1 ∧ r.tail_entity_id = key.2)).map
          (·.type))).length)
      (relationConflictFor relations)]
    rw [List.nil_append]
    congr 1
    apply List.filter_congr
    intro key _
    rw [decide_eq_decide]
    constructor
    · rintro ⟨_, h2⟩
      exact h2
    · intro h2
      refine ⟨?_, h2⟩
      have hd := pyDedup_length_le ((relations.filter (fun r =>
        r.head_entity_id = key.1 ∧ r.tail_entity_id = key.2)).map (·.type))
      rw [List.length_map] at hd
      omega
  · intro key
    unfold relationConflictFor
    by_cases h : areContradictoryRelations ((relations.filter (fun r =>
      r.head_entity_id = key.1 ∧ r.tail_entity_id = key.2)).map
        (·.type)) = true
    · rw [if_pos h, if_pos h]
    · rw [if_neg h, if_neg h]

/-- A conflict with no conflicting items and no confidence scores: the
resolver raises, and the fallback raises too. -/
def c7EmptyConflict : Conflict :=
  ⟨"c7", .entity_name_conflict, "", [], [], none, none, 0⟩

/-- C7 counterexample: on a conflict with no conflicting items, the
default `highest_confidence` resolution raises, the except-branch
fallback `conflicting_items[0]` raises `IndexError` itself, and
`batch_resolve_conflicts` aborts instead of continuing. -/
theorem resolve_conflict_empty_items_aborts :
    (resolveConflict [] c7EmptyConflict none).2 = .error "IndexError" ∧
    batchResolveConflicts [] [] [c7EmptyConflict] = .error "IndexError" := by
  constructor <;> rfl

theorem resolveConflict_ok_of_ne_nil (history : List Conflict) (c : Conflict)
    (stratOpt : Option String) (hne : c.conflicting_items ≠ []) :
    ∃ h' c', resolveConflict history c stratOpt = (h', .ok c') := by
  match hitem : c.conflicting_items, hne with
  | v :: vs, _ =>
      simp only [resolveConflict]
      cases hinner : innerResolve { c with resolution_strategy := some (stratOpt.getD (defaultStrategy c.conflict_type)) } (stratOpt.getD (defaultStrategy c.conflict_type)) with
      | ok c' => exact ⟨history ++ [c'], c', by simp only [hinner]⟩
      | error e =>
          exact ⟨history,
            { c with
                resolution_strategy := some (stratOpt.getD (defaultStrategy c.conflict_type))
                resolved_value := some v
                resolution_confidence := 1/10 },
            by simp only [hinner, hitem, List.head?_cons]⟩

/-- C7 (amended): whenever the inner resolver raises on a conflict that
has at least one conflicting item, `resolve_conflict` catches the error
and returns the conflict with `resolved_value` set to the first
conflicting item and `resolution_confidence = 0.1` (without touching the
history); and a batch whose conflicts all have at least one conflicting
item is resolved completely, one result per conflict.  (With no
conflicting items the fallback itself raises and aborts the batch.) -/
theorem resolution_failure_falls_back_and_batch_continues :
    (∀ (history : List Conflict) (c : Conflict) (stratOpt : Option String)
      (e : String), c.conflicting_items ≠ [] →
      innerResolve { c with resolution_strategy := some (stratOpt.getD (defaultStrategy c.conflict_type)) } (stratOpt.getD (defaultStrategy c.conflict_type)) = .error e →
      resolveConflict history c stratOpt = (history, .ok
        { c with
            resolution_strategy := some (stratOpt.getD (defaultStrategy c.conflict_type))
            resolved_value := some (c.conflicting_items.headD (.cstr ""))
            resolution_confidence := 1/10 })) ∧
    (∀ (history : List Conflict) (mapping : List (ConflictType × String))
      (conflicts : List Conflict),
      (∀ c ∈ conflicts, c.conflicting_items ≠ []) →
      ∃ h' res, batchResolveConflicts history mapping conflicts =
        .ok (h', res) ∧ res.length = conflicts.length) := by
  constructor
  · intro history c stratOpt e hne hinner
    match hitem : c.conflicting_items, hne with
    | v :: vs, _ =>
        simp only [resolveConflict]
        rw [hinner]
        simp only [hitem, List.head?_cons, List.headD_cons]
  · intro history mapping conflicts
    induction conflicts generalizing history with
    | nil =>
        intro _
        exact ⟨history, [], rfl, rfl⟩
    | cons c rest ih =>
        intro hall
        obtain ⟨h', c', hres⟩ := resolveConflict_ok_of_ne_nil history c
          ((mapping.find? (fun p => p.1 = c.conflict_type)).map (·.2))
          (hall c (List.mem_cons_self c rest))
        obtain ⟨h'', res, hbatch, hlen⟩ := ih h'
          (fun x hx => hall x (List.mem_cons_of_mem c hx))
        refine ⟨h'', c' :: res, ?_, ?_⟩
        · simp only [batchResolveConflicts, hres, hbatch]
        · simp [hlen]

/-- A name conflict with one item but no confidence scores: the default
`highest_confidence` strategy raises `max() of empty sequence`. -/
def c7WitnessConflict : Conflict :=
  ⟨"w", .entity_name_conflict, "", [.cstr "X"], [], none, none, 0⟩

/-- Witness for the C7 theorem at a concrete failing conflict. -/
theorem resolution_failure_falls_back_witness :
    (c7WitnessConflict.conflicting_items ≠ []) ∧
    (innerResolve { c7WitnessConflict with resolution_strategy := some ((none : Option String).getD (defaultStrategy c7WitnessConflict.conflict_type)) } ((none : Option String).getD (defaultStrategy c7WitnessConflict.conflict_type)) = .error "ValueError") ∧
    (resolveConflict [] c7WitnessConflict none = ([], .ok
      { c7WitnessConflict with
          resolution_strategy := some ((none : Option String).getD (defaultStrategy c7WitnessConflict.conflict_type))
          resolved_value := some (c7WitnessConflict.conflicting_items.headD (.cstr ""))
          resolution_confidence := 1/10 })) ∧
    (∃ h' res, batchResolveConflicts [] [] [c7WitnessConflict] =
      .ok (h', res) ∧ res.length = 1) :=
  ⟨by decide, by rfl,
   resolution_failure_falls_back_and_batch_continues.1 [] c7WitnessConflict
     none "ValueError" (by decide) (by rfl),
   by
     obtain ⟨h', res, hb, hlen⟩ :=
       resolution_failure_falls_back_and_batch_continues.2 [] []
         [c7WitnessConflict] (by decide)
     exact ⟨h', res, hb, hlen⟩⟩

open scoped Classical in
/-- The spec's description of the dedup pass, stated as a recursion on
the list of still-unclustered indices (in input order): the first
unclustered entity `i` becomes a seed, every later unclustered `j` with
`entitySimilarity(i, j) ≥ threshold` joins `i`'s cluster (compared
against the seed only), and the scan continues on the rest. -/
noncomputable def seedScan (ents : List Entity) (thr : ℝ) :
    List ℕ → List (List ℕ)
  | [] => []
  | i :: rest =>
      (i :: rest.filter (fun j =>
        decide (thr ≤ entitySimilarity (entAt ents i) (entAt ents j)))) ::
      seedScan ents thr (rest.filter (fun j =>
        decide (¬ thr ≤ entitySimilarity (entAt ents i) (entAt ents j))))
termination_by l => l.length
decreasing_by
  exact Nat.lt_succ_of_le (List.length_filter_le _ _)

theorem filter_range_ge (n a : ℕ) (q : ℕ → Bool) :
    (List.range n).filter (fun j => decide (a ≤ j) && q j)
      = (List.range' a (n - a)).filter q := by
  rcases Nat.le_total a n with ha | ha
  · have hsplit : List.range n = List.range' 0 a ++ List.range' a (n - a) := by
      rw [List.range_eq_range']
      have h := List.range'_append 0 a (n - a) 1
      simp only [Nat.zero_add, Nat.one_mul] at h
      have h2 : n = n - a + a := by omega
      nth_rewrite 1 [h2]
      exact h.symm
    rw [hsplit, List.filter_append]
    have h1 : (List.range' 0 a).filter (fun j => decide (a ≤ j) && q j) = [] := by
      rw [List.filter_eq_nil_iff]
      intro j hj
      rw [List.mem_range'_1] at hj
      simp only [Bool.and_eq_true, decide_eq_true_eq, not_and]
      intro hc
      omega
    have h2 : (List.range' a (n - a)).filter (fun j => decide (a ≤ j) && q j)
        = (List.range' a (n - a)).filter q := by
      apply List.filter_congr
      intro j hj
      rw [List.mem_range'_1] at hj
      simp [hj.1]
    rw [h1, h2, List.nil_append]
  · have h0 : n - a = 0 := by omega
    rw [h0]
    have h1 : (List.range n).filter (fun j => decide (a ≤ j) && q j) = [] := by
      rw [List.filter_eq_nil_iff]
      intro j hj
      rw [List.mem_range] at hj
      simp only [Bool.and_eq_true, decide_eq_true_eq, not_and]
      intro hc
      omega
    rw [h1]
    rfl

open scoped Classical in
theorem dedup_bridge (ents : List Entity) (thr : ℝ) :
    ∀ (k a : ℕ), a + k = ents.length →
    ∀ (visited : List ℕ) (dups : List (List ℕ)),
    (∀ j, j < a → j ∈ visited) →
    ((List.range' a k).foldl (dupStep ents thr) (dups, visited)).1 =
      dups ++ (seedScan ents thr ((List.range ents.length).filter
        (fun j => decide (a ≤ j) && decide (j ∉ visited)))).filter
          (fun g => decide (1 < g.length)) := by
  intro k
  induction k with
  | zero =>
      intro a ha visited dups hvis
      have hfil : (List.range ents.length).filter
          (fun j => decide (a ≤ j) && decide (j ∉ visited)) = [] := by
        rw [List.filter_eq_nil_iff]
        intro j hj
        rw [List.mem_range] at hj
        have hj' : j < a := by omega
        have hjv := hvis j hj'
        simp [hjv]
      rw [hfil]
      simp [seedScan]
  | succ k ih =>
      intro a ha visited dups hvis
      rw [List.range'_succ, List.foldl_cons]
      by_cases hin : a ∈ visited
      · have hstep : dupStep ents thr (dups, visited) a = (dups, visited) := by
          simp only [dupStep]
          rw [if_pos hin]
        rw [hstep]
        have ih' := ih (a + 1) (by omega) visited dups (fun j hj => by
          rcases Nat.lt_succ_iff_lt_or_eq.mp hj with h | h
          · exact hvis j h
          · exact h ▸ hin)
        rw [ih']
        have hfil : (List.range ents.length).filter
            (fun j => decide (a + 1 ≤ j) && decide (j ∉ visited))
            = (List.range ents.length).filter
              (fun j => decide (a ≤ j) && decide (j ∉ visited)) := by
          apply List.filter_congr
          intro j _
          by_cases hjv : j ∈ visited
          · simp [hjv]
          · by_cases hja : a + 1 ≤ j
            · have : a ≤ j := by omega
              simp [hja, this]
            · have hne : j ≠ a := by
                intro hc
                exact hjv (hc ▸ hin)
              have : ¬ a ≤ j := by omega
              simp [hja, this]
        rw [hfil]
      · have hstep : dupStep ents thr (dups, visited) a =
            ((if 1 < (a :: (List.range ents.length).filter (fun j =>
                decide (a < j) && decide (j ∉ visited) &&
                decide (thr ≤ entitySimilarity (entAt ents a)
                  (entAt ents j)))).length
              then dups ++ [a :: (List.range ents.length).filter (fun j =>
                decide (a < j) && decide (j ∉ visited) &&
                decide (thr ≤ entitySimilarity (entAt ents a)
                  (entAt ents j)))]
              else dups),
             visited ++ (List.range ents.length).filter (fun j =>
                decide (a < j) && decide (j ∉ visited) &&
                decide (thr ≤ entitySimilarity (entAt ents a)
                  (entAt ents j))) ++ [a]) := by
          simp only [dupStep]
          rw [if_neg hin]
        rw [hstep]
        have hvis' : ∀ j, j < a + 1 → j ∈ visited ++ (List.range ents.length).filter (fun j =>
              decide (a < j) && decide (j ∉ visited) &&
              decide (thr ≤ entitySimilarity (entAt ents a) (entAt ents j))) ++ [a] := by
          intro j hj
          rcases Nat.lt_succ_iff_lt_or_eq.mp hj with h | h
          · exact List.mem_append.mpr (Or.inl (List.mem_append.mpr
              (Or.inl (hvis j h))))
          · subst h
            exact List.mem_append.mpr (Or.inr (by simp))
        have ih' := ih (a + 1) (by omega)
          (visited ++ (List.range ents.length).filter (fun j =>
              decide (a < j) && decide (j ∉ visited) &&
              decide (thr ≤ entitySimilarity (entAt ents a) (entAt ents j))) ++ [a])
          (if 1 < (a :: (List.range ents.length).filter (fun j =>
              decide (a < j) && decide (j ∉ visited) &&
              decide (thr ≤ entitySimilarity (entAt ents a) (entAt ents j)))).length
           then dups ++ [a :: (List.range ents.length).filter (fun j =>
              decide (a < j) && decide (j ∉ visited) &&
              decide (thr ≤ entitySimilarity (entAt ents a) (entAt ents j)))]
           else dups) hvis'
        rw [ih']
        have hrem : (List.range ents.length).filter
            (fun j => decide (a ≤ j) && decide (j ∉ visited))
            = a :: (List.range' (a + 1) k).filter
                (fun j => decide (j ∉ visited)) := by
          rw [filter_range_ge]
          rw [show ents.length - a = k + 1 by omega]
          rw [List.range'_succ]
          rw [List.filter_cons]
          simp [hin]
        have hjs : (List.range ents.length).filter (fun j =>
              decide (a < j) && decide (j ∉ visited) &&
              decide (thr ≤ entitySimilarity (entAt ents a) (entAt ents j)))
            = ((List.range' (a + 1) k).filter
                (fun j => decide (j ∉ visited))).filter (fun j =>
                  decide (thr ≤ entitySimilarity (entAt ents a)
                    (entAt ents j))) := by
          rw [List.filter_filter]
          have h1 := filter_range_ge ents.length (a + 1) (fun j =>
            decide (thr ≤ entitySimilarity (entAt ents a) (entAt ents j)) &&
            decide (j ∉ visited))
          rw [show ents.length - (a + 1) = k by omega] at h1
          rw [← h1]
          apply List.filter_congr
          intro j _
          by_cases h1 : a < j <;> by_cases h2 : j ∈ visited <;>
            by_cases h3 : thr ≤ entitySimilarity (entAt ents a) (entAt ents j) <;>
            simp [h1, h2, h3, Nat.add_one_le_iff]
        have hremNew : (List.range ents.length).filter (fun j =>
              decide (a + 1 ≤ j) &&
              decide (j ∉ visited ++ (List.range ents.length).filter (fun j =>
              decide (a < j) && decide (j ∉ visited) &&
              decide (thr ≤ entitySimilarity (entAt ents a) (entAt ents j))) ++ [a]))
            = ((List.range' (a + 1) k).filter
                (fun j => decide (j ∉ visited))).filter (fun j =>
                  decide (¬ thr ≤ entitySimilarity (entAt ents a)
                    (entAt ents j))) := by
          rw [List.filter_filter]
          have h1 := filter_range_ge ents.length (a + 1) (fun j =>
            decide (j ∉ visited ++ (List.range ents.length).filter (fun j =>
              decide (a < j) && decide (j ∉ visited) &&
              decide (thr ≤ entitySimilarity (entAt ents a) (entAt ents j))) ++ [a]))
          rw [show ents.length - (a + 1) = k by omega] at h1
          rw [h1]
          apply List.filter_congr
          intro j hj
          rw [List.mem_range'_1] at hj
          by_cases hv : j ∈ visited
          · have hmem : j ∈ visited ++ (List.range ents.length).filter (fun j =>
              decide (a < j) && decide (j ∉ visited) &&
              decide (thr ≤ entitySimilarity (entAt ents a) (entAt ents j))) ++ [a] :=
              List.mem_append.mpr (Or.inl (List.mem_append.mpr (Or.inl hv)))
            simp [hv, hmem]
          · by_cases hs : thr ≤ entitySimilarity (entAt ents a) (entAt ents j)
            · have hjmem : j ∈ (List.range ents.length).filter (fun j =>
              decide (a < j) && decide (j ∉ visited) &&
              decide (thr ≤ entitySimilarity (entAt ents a) (entAt ents j))) := by
                rw [List.mem_filter]
                refine ⟨List.mem_range.mpr (by omega), ?_⟩
                simp only [Bool.and_eq_true, decide_eq_true_eq]
                exact ⟨⟨by omega, hv⟩, hs⟩
              have hmem : j ∈ visited ++ (List.range ents.length).filter (fun j =>
              decide (a < j) && decide (j ∉ visited) &&
              decide (thr ≤ entitySimilarity (entAt ents a) (entAt ents j))) ++ [a] :=
                List.mem_append.mpr (Or.inl (List.mem_append.mpr
                  (Or.inr hjmem)))
              rw [decide_eq_false (not_not_intro hmem),
                decide_eq_false (not_not_intro hs), Bool.false_and]
            · have hnotin : j ∉ visited ++ (List.range ents.length).filter (fun j =>
              decide (a < j) && decide (j ∉ visited) &&
              decide (thr ≤ entitySimilarity (entAt ents a) (entAt ents j))) ++ [a] := by
                intro hc
                rcases List.mem_append.mp hc with hc' | hc'
                · rcases List.mem_append.mp hc' with h'' | h''
                  · exact hv h''
                  · have hcond := (List.mem_filter.mp h'').2
                    simp only [Bool.and_eq_true, decide_eq_true_eq] at hcond
                    exact hs hcond.2
                · have : j = a := by simpa using hc'
                  omega
              rw [decide_eq_true hnotin, decide_eq_true hs,
                decide_eq_true hv]
              rfl
        rw [hremNew, hrem]
        simp only [seedScan]
        rw [List.filter_cons]
        rw [hjs]
        by_cases hlen : 1 < (a :: ((List.range' (a + 1) k).filter
            (fun j => decide (j ∉ visited))).filter (fun j =>
              decide (thr ≤ entitySimilarity (entAt ents a)
                (entAt ents j)))).length
        · rw [if_pos hlen, if_pos (by simpa using hlen)]
          simp [List.append_assoc]
        · rw [if_neg hlen, if_neg (by simpa using hlen)]

/-! ## `clustering_by_similarity` (`kg_core/knowledge_mapping/similarity_calculator.py`)

The generic connected-components clustering utility of the similarity
layer, used to contrast the fusion engine's seed-based dedup pass. -/

/-- Item at a list index (`items[i]`; only in-range indices are ever
used by the loops below). -/
def strAt (l : List String) (i : ℕ) : String :=
  l.getD i ""

/-- `batch_similarity_matrix` (default method `combined`): `1.0` on the
diagonal, and each off-diagonal unordered pair computed once with the
lower-index item as the first argument and mirrored. -/
noncomputable def simMatrix (items : List String) (i j : ℕ) : ℝ :=
  if i = j then 1
  else if i < j then stringSimilarity (strAt items i) (strAt items j) .combined
  else stringSimilarity (strAt items j) (strAt items i) .combined

open scoped Classical in
/-- The inner `dfs` of `clustering_by_similarity`: mark the node
visited, append it to the cluster, then recurse into every still
unvisited neighbour whose matrix entry reaches the threshold.  State is
`(cluster, visited)`.  Python's recursion carries no fuel; `dfs` is
only entered on unvisited nodes and marks its node before recursing,
so the recursion depth is bounded by the number of items and fuel
`items.length` at the top level reproduces it exactly. -/
noncomputable def dfsClu (items : List String) (thr : ℝ) :
    ℕ → ℕ → List ℕ × List ℕ → List ℕ × List ℕ
  | 0, _, st => st
  | fuel + 1, node, st =>
      (List.range items.length).foldl (fun st' nb =>
        if nb ∉ st'.2 ∧ thr ≤ simMatrix items node nb then
          dfsClu items thr fuel nb st'
        else st') (st.1 ++ [node], st.2 ++ [node])

open scoped Classical in
/-- `clustering_by_similarity` (default threshold `0.7`): connected
components of the thresholded similarity graph by depth-first search,
components in order of their smallest member, members in DFS order. -/
noncomputable def clusteringBySimilarity (items : List String) (thr : ℝ) :
    List (List ℕ) :=
  ((List.range items.length).foldl (fun (st : List (List ℕ) × List ℕ) i =>
      if i ∈ st.2 then st
      else
        ((st.1 ++ [(dfsClu items thr items.length i ([], st.2)).1]),
          (dfsClu items thr items.length i ([], st.2)).2)) ([], [])).1

/-- The constructor default `threshold=0.7` of
`clustering_by_similarity`. -/
noncomputable def clusteringDefaultThreshold : ℝ := 7/10

/-! ### A concrete input separating seed-based dedup from connected components -/

/-- Demo entity: shares name and type with the others, property key
`k` only. -/
def c5a : Entity := ⟨"a", "x", "T", [("k", .pnum 1)], []⟩

/-- Demo entity: property keys `k` and `m`, similar to both `c5a` and
`c5c`. -/
def c5b : Entity := ⟨"b", "x", "T", [("k", .pnum 1), ("m", .pnum 2)], []⟩

/-- Demo entity: property key `m` only, similar to `c5b` but not to
`c5a`. -/
def c5c : Entity := ⟨"c", "x", "T", [("m", .pnum 2)], []⟩

/-- The separating input. -/
def c5Entities : List Entity := [c5a, c5b, c5c]

theorem c5_name_sim : stringSimilarity "x" "x" .combined = 1 := by
  rw [stringSimilarity, if_neg (by simp), if_pos rfl]

theorem c5_struct_ab :
    structuralSimilarity [("k", PropValue.pnum 1)]
      [("k", PropValue.pnum 1), ("m", PropValue.pnum 2)] = 3/4 := by
  rw [structuralSimilarity, if_neg (by simp), if_neg (by simp)]
  have hU : (((alKeys [("k", PropValue.pnum 1)]).toFinset ∪
      (alKeys [("k", PropValue.pnum 1), ("m", PropValue.pnum 2)]).toFinset)).card
      = 2 := by decide
  have hI : (((alKeys [("k", PropValue.pnum 1)]).toFinset ∩
      (alKeys [("k", PropValue.pnum 1), ("m", PropValue.pnum 2)]).toFinset))
      = {"k"} := by decide
  rw [hU, hI]
  rw [if_pos (by norm_num), if_pos (by decide)]
  rw [Finset.sum_singleton, Finset.card_singleton]
  have hv : propValueSimilarity
      (propAt [("k", PropValue.pnum 1)] "k")
      (propAt [("k", PropValue.pnum 1), ("m", PropValue.pnum 2)] "k") = 1 := by
    show propValueSimilarity (PropValue.pnum 1) (PropValue.pnum 1) = 1
    simp [propValueSimilarity]
  rw [hv]
  norm_num

theorem c5_struct_bc :
    structuralSimilarity [("k", PropValue.pnum 1), ("m", PropValue.pnum 2)]
      [("m", PropValue.pnum 2)] = 3/4 := by
  rw [structuralSimilarity, if_neg (by simp), if_neg (by simp)]
  have hU : (((alKeys [("k", PropValue.pnum 1), ("m", PropValue.pnum 2)]).toFinset ∪
      (alKeys [("m", PropValue.pnum 2)]).toFinset)).card = 2 := by decide
  have hI : (((alKeys [("k", PropValue.pnum 1), ("m", PropValue.pnum 2)]).toFinset ∩
      (alKeys [("m", PropValue.pnum 2)]).toFinset)) = {"m"} := by decide
  rw [hU, hI]
  rw [if_pos (by norm_num), if_pos (by decide)]
  rw [Finset.sum_singleton, Finset.card_singleton]
  have hv : propValueSimilarity
      (propAt [("k", PropValue.pnum 1), ("m", PropValue.pnum 2)] "m")
      (propAt [("m", PropValue.pnum 2)] "m") = 1 := by
    show propValueSimilarity (PropValue.pnum 2) (PropValue.pnum 2) = 1
    simp [propValueSimilarity]
  rw [hv]
  norm_num

theorem c5_struct_ac :
    structuralSimilarity [("k", PropValue.pnum 1)]
      [("m", PropValue.pnum 2)] = 0 := by
  rw [structuralSimilarity, if_neg (by simp), if_neg (by simp)]
  have hU : (((alKeys [("k", PropValue.pnum 1)]).toFinset ∪
      (alKeys [("m", PropValue.pnum 2)]).toFinset)).card = 2 := by decide
  have hI : (((alKeys [("k", PropValue.pnum 1)]).toFinset ∩
      (alKeys [("m", PropValue.pnum 2)]).toFinset)).card = 0 := by decide
  rw [hU, hI]
  rw [if_pos (by norm_num), if_neg (by decide)]
  norm_num

theorem c5_sim_ab : entitySimilarity c5a c5b = 17/20 := by
  rw [entitySimilarity]
  show stringSimilarity "x" "x" .combined * (4/10) +
    (if ("T" : String) = "T" then (1 : ℝ) else 0) * (3/10) +
    structuralSimilarity [("k", PropValue.pnum 1)]
      [("k", PropValue.pnum 1), ("m", PropValue.pnum 2)] * (2/10) +
    (if (([] : List String).toFinset ∪ ([] : List String).toFinset) ≠ ∅ then
      (((([] : List String).toFinset ∩ ([] : List String).toFinset)).card : ℝ) /
        (((([] : List String).toFinset ∪ ([] : List String).toFinset)).card : ℝ)
     else 0) * (1/10) = 17/20
  rw [c5_name_sim, c5_struct_ab, if_pos rfl, if_neg (by decide)]
  norm_num

theorem c5_sim_bc : entitySimilarity c5b c5c = 17/20 := by
  rw [entitySimilarity]
  show stringSimilarity "x" "x" .combined * (4/10) +
    (if ("T" : String) = "T" then (1 : ℝ) else 0) * (3/10) +
    structuralSimilarity [("k", PropValue.pnum 1), ("m", PropValue.pnum 2)]
      [("m", PropValue.pnum 2)] * (2/10) +
    (if (([] : List String).toFinset ∪ ([] : List String).toFinset) ≠ ∅ then
      (((([] : List String).toFinset ∩ ([] : List String).toFinset)).card : ℝ) /
        (((([] : List String).toFinset ∪ ([] : List String).toFinset)).card : ℝ)
     else 0) * (1/10) = 17/20
  rw [c5_name_sim, c5_struct_bc, if_pos rfl, if_neg (by decide)]
  norm_num

theorem c5_sim_ac : entitySimilarity c5a c5c = 7/10 := by
  rw [entitySimilarity]
  show stringSimilarity "x" "x" .combined * (4/10) +
    (if ("T" : String) = "T" then (1 : ℝ) else 0) * (3/10) +
    structuralSimilarity [("k", PropValue.pnum 1)]
      [("m", PropValue.pnum 2)] * (2/10) +
    (if (([] : List String).toFinset ∪ ([] : List String).toFinset) ≠ ∅ then
      (((([] : List String).toFinset ∩ ([] : List String).toFinset)).card : ℝ) /
        (((([] : List String).toFinset ∪ ([] : List String).toFinset)).card : ℝ)
     else 0) * (1/10) = 7/10
  rw [c5_name_sim, c5_struct_ac, if_pos rfl, if_neg (by decide)]
  norm_num

open scoped Classical in
theorem dupStep_eq (ents : List Entity) (thr : ℝ)
    (st : List (List ℕ) × List ℕ) (i : ℕ) (js : List ℕ)
    (hin : i ∉ st.2)
    (hjs : (List.range ents.length).filter (fun j =>
      decide (i < j) && decide (j ∉ st.2) &&
      decide (thr ≤ entitySimilarity (entAt ents i) (entAt ents j))) = js) :
    dupStep ents thr st i =
      ((if 1 < (i :: js).length then st.1 ++ [i :: js] else st.1),
        st.2 ++ js ++ [i]) := by
  simp only [dupStep]
  rw [if_neg hin, hjs]

open scoped Classical in
theorem c5_dedup : identifyDuplicateEntities c5Entities ((8:ℝ)/10) = [[0, 1]] := by
  have hab : ((8:ℝ)/10 ≤ entitySimilarity (entAt c5Entities 0) (entAt c5Entities 1)) := by
    rw [show entAt c5Entities 1 = c5b from rfl,
      show entAt c5Entities 0 = c5a from rfl, c5_sim_ab]
    norm_num
  have hac : ¬ ((8:ℝ)/10 ≤ entitySimilarity (entAt c5Entities 0) (entAt c5Entities 2)) := by
    rw [show entAt c5Entities 2 = c5c from rfl,
      show entAt c5Entities 0 = c5a from rfl, c5_sim_ac]
    norm_num
  have hjs0 : (List.range c5Entities.length).filter (fun j =>
      decide (0 < j) && decide (j ∉ ([] : List ℕ)) &&
      decide ((8:ℝ)/10 ≤ entitySimilarity (entAt c5Entities 0)
        (entAt c5Entities j))) = [1] := by
    have hcongr : ∀ j ∈ List.range c5Entities.length,
        (decide (0 < j) && decide (j ∉ ([] : List ℕ)) &&
         decide ((8:ℝ)/10 ≤ entitySimilarity (entAt c5Entities 0)
           (entAt c5Entities j)))
        = (fun j => decide (0 < j) && decide (j = 1)) j := by
      intro j hj
      rw [show List.range c5Entities.length = [0, 1, 2] from rfl] at hj
      fin_cases hj
      · rfl
      · show decide ((8:ℝ)/10 ≤ entitySimilarity (entAt c5Entities 0)
          (entAt c5Entities 1)) = true
        exact decide_eq_true hab
      · show decide ((8:ℝ)/10 ≤ entitySimilarity (entAt c5Entities 0)
          (entAt c5Entities 2)) = false
        exact decide_eq_false hac
    rw [List.filter_congr hcongr]
    rfl
  have hjs2 : (List.range c5Entities.length).filter (fun j =>
      decide (2 < j) && decide (j ∉ ([1, 0] : List ℕ)) &&
      decide ((8:ℝ)/10 ≤ entitySimilarity (entAt c5Entities 2)
        (entAt c5Entities j))) = [] := by
    have hcongr : ∀ j ∈ List.range c5Entities.length,
        (decide (2 < j) && decide (j ∉ ([1, 0] : List ℕ)) &&
         decide ((8:ℝ)/10 ≤ entitySimilarity (entAt c5Entities 2)
           (entAt c5Entities j)))
        = (fun _ => false) j := by
      intro j hj
      rw [show List.range c5Entities.length = [0, 1, 2] from rfl] at hj
      fin_cases hj
      · rfl
      · rfl
      · rfl
    rw [List.filter_congr hcongr]
    rfl
  have h0 : dupStep c5Entities ((8:ℝ)/10) ([], []) 0 = ([[0, 1]], [1, 0]) :=
    (dupStep_eq c5Entities ((8:ℝ)/10) ([], []) 0 [1] (by decide) hjs0).trans
      (by decide)
  have h1 : dupStep c5Entities ((8:ℝ)/10) ([[0, 1]], [1, 0]) 1
      = ([[0, 1]], [1, 0]) := by
    simp only [dupStep]
    rw [if_pos (by decide)]
  have h2 : dupStep c5Entities ((8:ℝ)/10) ([[0, 1]], [1, 0]) 2
      = ([[0, 1]], [1, 0, 2]) :=
    (dupStep_eq c5Entities ((8:ℝ)/10) ([[0, 1]], [1, 0]) 2 [] (by decide)
      hjs2).trans (by decide)
  rw [identifyDuplicateEntities, if_neg (by decide)]
  rw [show List.range c5Entities.length = [0, 1, 2] from rfl]
  rw [List.foldl_cons, h0, List.foldl_cons, h1, List.foldl_cons, h2,
    List.foldl_nil]

theorem identifyDuplicateEntities_eq_seedScan (ents : List Entity) (thr : ℝ) :
    identifyDuplicateEntities ents thr =
      if ents.length ≤ 1 then []
      else (seedScan ents thr (List.range ents.length)).filter
        (fun g => decide (1 < g.length)) := by
  by_cases h : ents.length ≤ 1
  · rw [identifyDuplicateEntities, if_pos h, if_pos h]
  · rw [identifyDuplicateEntities, if_neg h, if_neg h]
    have hb := dedup_bridge ents thr ents.length 0 (by omega) [] []
      (fun j hj => absurd hj (Nat.not_lt_zero j))
    have hf : (List.range ents.length).filter
        (fun j => decide (0 ≤ j) && decide (j ∉ ([] : List ℕ)))
        = List.range ents.length :=
      List.filter_eq_self.mpr (fun a _ => by simp)
    rw [hf, List.nil_append] at hb
    nth_rewrite 1 [List.range_eq_range']
    exact hb

theorem c5_cluster_ids :
    (clusterEntities c5Entities ((8:ℝ)/10)).map
      (fun c => c.entities.map Entity.id) = [["a", "b"], ["c"]] := by
  rw [clusterEntities, c5_dedup]
  have hf : (List.range c5Entities.length).filter
      (fun i => decide (i ∉ ([[0, 1]] : List (List ℕ)).flatten)) = [2] := by
    decide
  rw [hf]
  rfl

open scoped Classical in
theorem stepSkip (items : List String) (thr : ℝ) (fuel node : ℕ)
    (st : List ℕ × List ℕ) (nb : ℕ) (h : nb ∈ st.2) :
    (if nb ∉ st.2 ∧ thr ≤ simMatrix items node nb then
      dfsClu items thr fuel nb st else st) = st :=
  if_neg (fun hc => hc.1 h)

open scoped Classical in
theorem stepGo (items : List String) (thr : ℝ) (fuel node : ℕ)
    (st : List ℕ × List ℕ) (nb : ℕ) (h1 : nb ∉ st.2)
    (h2 : thr ≤ simMatrix items node nb) :
    (if nb ∉ st.2 ∧ thr ≤ simMatrix items node nb then
      dfsClu items thr fuel nb st else st) = dfsClu items thr fuel nb st :=
  if_pos ⟨h1, h2⟩

open scoped Classical in
theorem c5_sim_mat : ∀ i j : ℕ, i < 3 → j < 3 →
    ((7:ℝ)/10 ≤ simMatrix ["x", "x", "x"] i j) := by
  have hstr : ∀ m : ℕ, m < 3 → strAt ["x", "x", "x"] m = "x" := by decide
  intro i j hi hj
  by_cases hij : i = j
  · rw [simMatrix, if_pos hij]
    norm_num
  · by_cases hlt : i < j
    · rw [simMatrix, if_neg hij, if_pos hlt, hstr i hi, hstr j hj, c5_name_sim]
      norm_num
    · rw [simMatrix, if_neg hij, if_neg hlt, hstr j hj, hstr i hi, c5_name_sim]
      norm_num

open scoped Classical in
theorem c5_dfs2 : dfsClu ["x", "x", "x"] ((7:ℝ)/10) 1 2 ([0, 1], [0, 1])
    = ([0, 1, 2], [0, 1, 2]) := by
  rw [show (1:ℕ) = 0 + 1 from rfl]
  show (List.range (["x", "x", "x"] : List String).length).foldl (fun st' nb =>
      if nb ∉ st'.2 ∧ (7:ℝ)/10 ≤ simMatrix ["x", "x", "x"] 2 nb then
        dfsClu ["x", "x", "x"] ((7:ℝ)/10) 0 nb st'
      else st') ([0, 1, 2], [0, 1, 2]) = ([0, 1, 2], [0, 1, 2])
  rw [show List.range (["x", "x", "x"] : List String).length = [0, 1, 2] from rfl]
  rw [List.foldl_cons,
    stepSkip ["x", "x", "x"] ((7:ℝ)/10) 0 2 ([0, 1, 2], [0, 1, 2]) 0 (by decide)]
  rw [List.foldl_cons,
    stepSkip ["x", "x", "x"] ((7:ℝ)/10) 0 2 ([0, 1, 2], [0, 1, 2]) 1 (by decide)]
  rw [List.foldl_cons,
    stepSkip ["x", "x", "x"] ((7:ℝ)/10) 0 2 ([0, 1, 2], [0, 1, 2]) 2 (by decide)]
  rw [List.foldl_nil]

open scoped Classical in
theorem c5_dfs1 : dfsClu ["x", "x", "x"] ((7:ℝ)/10) 2 1 ([0], [0])
    = ([0, 1, 2], [0, 1, 2]) := by
  rw [show (2:ℕ) = 1 + 1 from rfl]
  show (List.range (["x", "x", "x"] : List String).length).foldl (fun st' nb =>
      if nb ∉ st'.2 ∧ (7:ℝ)/10 ≤ simMatrix ["x", "x", "x"] 1 nb then
        dfsClu ["x", "x", "x"] ((7:ℝ)/10) 1 nb st'
      else st') ([0, 1], [0, 1]) = ([0, 1, 2], [0, 1, 2])
  rw [show List.range (["x", "x", "x"] : List String).length = [0, 1, 2] from rfl]
  rw [List.foldl_cons,
    stepSkip ["x", "x", "x"] ((7:ℝ)/10) 1 1 ([0, 1], [0, 1]) 0 (by decide)]
  rw [List.foldl_cons,
    stepSkip ["x", "x", "x"] ((7:ℝ)/10) 1 1 ([0, 1], [0, 1]) 1 (by decide)]
  rw [List.foldl_cons,
    stepGo ["x", "x", "x"] ((7:ℝ)/10) 1 1 ([0, 1], [0, 1]) 2 (by decide)
      (c5_sim_mat 1 2 (by norm_num) (by norm_num))]
  rw [c5_dfs2, List.foldl_nil]

open scoped Classical in
theorem c5_dfs0 : dfsClu ["x", "x", "x"] ((7:ℝ)/10) 3 0 ([], [])
    = ([0, 1, 2], [0, 1, 2]) := by
  rw [show (3:ℕ) = 2 + 1 from rfl]
  show (List.range (["x", "x", "x"] : List String).length).foldl (fun st' nb =>
      if nb ∉ st'.2 ∧ (7:ℝ)/10 ≤ simMatrix ["x", "x", "x"] 0 nb then
        dfsClu ["x", "x", "x"] ((7:ℝ)/10) 2 nb st'
      else st') ([0], [0]) = ([0, 1, 2], [0, 1, 2])
  rw [show List.range (["x", "x", "x"] : List String).length = [0, 1, 2] from rfl]
  rw [List.foldl_cons,
    stepSkip ["x", "x", "x"] ((7:ℝ)/10) 2 0 ([0], [0]) 0 (by decide)]
  rw [List.foldl_cons,
    stepGo ["x", "x", "x"] ((7:ℝ)/10) 2 0 ([0], [0]) 1 (by decide)
      (c5_sim_mat 0 1 (by norm_num) (by norm_num))]
  rw [c5_dfs1, List.foldl_cons,
    stepSkip ["x", "x", "x"] ((7:ℝ)/10) 2 0 ([0, 1, 2], [0, 1, 2]) 2 (by decide),
    List.foldl_nil]

open scoped Classical in
theorem cluStep_skip (items : List String) (thr : ℝ)
    (st : List (List ℕ) × List ℕ) (i : ℕ) (h : i ∈ st.2) :
    (if i ∈ st.2 then st
     else ((st.1 ++ [(dfsClu items thr items.length i ([], st.2)).1]),
       (dfsClu items thr items.length i ([], st.2)).2)) = st :=
  if_pos h

open scoped Classical in
theorem cluStep_go (items : List String) (thr : ℝ)
    (st : List (List ℕ) × List ℕ) (i : ℕ) (h : i ∉ st.2)
    (r : List ℕ × List ℕ)
    (hr : dfsClu items thr items.length i ([], st.2) = r) :
    (if i ∈ st.2 then st
     else ((st.1 ++ [(dfsClu items thr items.length i ([], st.2)).1]),
       (dfsClu items thr items.length i ([], st.2)).2))
    = (st.1 ++ [r.1], r.2) := by
  rw [if_neg h, hr]

open scoped Classical in
theorem c5_clustering :
    clusteringBySimilarity (c5Entities.map Entity.name) ((7:ℝ)/10)
    = [[0, 1, 2]] := by
  rw [show c5Entities.map Entity.name = ["x", "x", "x"] from rfl]
  rw [clusteringBySimilarity]
  rw [show List.range (["x", "x", "x"] : List String).length = [0, 1, 2] from rfl]
  rw [List.foldl_cons,
    cluStep_go ["x", "x", "x"] ((7:ℝ)/10) ([], []) 0 (by decide)
      ([0, 1, 2], [0, 1, 2]) c5_dfs0]
  rw [List.foldl_cons, cluStep_skip _ _ _ _ (by decide)]
  rw [List.foldl_cons, cluStep_skip _ _ _ _ (by decide)]
  rw [List.foldl_nil]
  rfl

/-- C5: the entity dedup pass is seed-based single-link grouping:
`identify_duplicate_entities` equals the seed scan `seedScan` (each
still-unclustered later entity joins the cluster of the earliest seed
whose similarity reaches the threshold, compared against the seed
only), restricted to groups with more than one member; every cluster
yields exactly one `FusionResult`; and on the concrete input
`c5Entities` (threshold `0.8`) the engine forms clusters
`{a, b}, {c}`, while the similarity layer's `clustering_by_similarity`
(threshold `0.7`) on the same entity names forms the single connected
component `{0, 1, 2}` — a different grouping. -/
theorem seed_based_dedup_not_connected_components :
    (∀ (ents : List Entity) (thr : ℝ),
      identifyDuplicateEntities ents thr =
        if ents.length ≤ 1 then []
        else (seedScan ents thr (List.range ents.length)).filter
          (fun g => decide (1 < g.length))) ∧
    (∀ (ents : List Entity) (thr : ℝ),
      (batchFuseEntities ents thr).length = (clusterEntities ents thr).length) ∧
    identifyDuplicateEntities c5Entities ((8:ℝ)/10) = [[0, 1]] ∧
    (clusterEntities c5Entities ((8:ℝ)/10)).map
      (fun c => c.entities.map Entity.id) = [["a", "b"], ["c"]] ∧
    clusteringBySimilarity (c5Entities.map Entity.name) ((7:ℝ)/10)
      = [[0, 1, 2]] ∧
    (clusterEntities c5Entities ((8:ℝ)/10)).length ≠
      (clusteringBySimilarity (c5Entities.map Entity.name) ((7:ℝ)/10)).length := by
  refine ⟨identifyDuplicateEntities_eq_seedScan, ?_, c5_dedup,
    c5_cluster_ids, c5_clustering, ?_⟩
  · intro ents thr
    show ((clusterEntities ents thr).map fuseEntityCluster).length
      = (clusterEntities ents thr).length
    exact List.length_map _ _
  · have h1 := congrArg List.length c5_cluster_ids
    rw [List.length_map] at h1
    have h2 := congrArg List.length c5_clustering
    rw [h1, h2]
    decide
